import Mathlib

/-!
Verification of the task-manager state core: the `appReducer` state-transition
function (`src/state/reducer.ts`), the action validator (`src/utils/validation.ts`)
and the memoized selector engine (`src/state/selectors.ts`).

Modelling conventions of this shallow embedding:
* JavaScript runtime values reaching the validator are modelled by `JSVal`
  (null, undefined, booleans, numbers, strings, arrays, objects); JS numbers by
  `JNum` (finite rational, NaN, ±∞) since no claim depends on float rounding.
* `String.trim` is embedded as `jsTrim` (drop Unicode whitespace on both ends);
  string lengths are counted in code points.
* `Date.now()` and `Math.random()` are oracle inputs: `appReducer` receives the
  clock value used for `createdAt`, and the clock value and random suffix used
  by `generateId`, as explicit arguments.
* A JS `Set<string>` is modelled as an insertion-ordered duplicate-free
  `List String`; the reducer only uses membership, insertion, deletion and
  clearing, which are modelled element-wise.
* Local civil time (used by the selector layer's `startOfDay`/`addDays`) is
  modelled as UTC with no daylight-saving transitions: `setHours(0,0,0,0)`
  floors to a multiple of 86400000 ms and `setDate(getDate()+n)` adds
  n·86400000 ms.
* The `theme` slice is opaque to the core and modelled as a raw `JSVal`.
-/

namespace TaskManager

/-- JS number: a finite value (modelled as a rational), NaN, or an infinity. -/
inductive JNum where
  | fin (q : ℚ)
  | nan
  | posInf
  | negInf

/-- A JavaScript runtime value, as seen by `validateAction` before any type
information is trusted. Objects are association lists of named fields. -/
inductive JSVal where
  | null
  | undefined
  | bool (b : Bool)
  | num (n : JNum)
  | str (s : String)
  | arr (elems : List JSVal)
  | obj (fields : List (String × JSVal))

/-- Property access `v[k]`: the first field with the given name, `undefined`
when the field is missing or the receiver is not an object. (The source only
accesses properties after checking the receiver is a truthy object.) -/
def getField (v : JSVal) (k : String) : JSVal :=
  match v with
  | .obj fields =>
    match fields.find? (fun p => p.1 == k) with
    | some p => p.2
    | none => .undefined
  | _ => .undefined

/-- JS truthiness: `false`, `0`, `NaN`, `""`, `null`, `undefined` are falsy. -/
def isTruthy (v : JSVal) : Bool :=
  match v with
  | .null => false
  | .undefined => false
  | .bool b => b
  | .num n =>
    match n with
    | .fin q => decide (q ≠ 0)
    | .nan => false
    | .posInf => true
    | .negInf => true
  | .str s => decide (s ≠ "")
  | .arr _ => true
  | .obj _ => true

/-- Embeds `typeof v === 'object'` (true for objects, arrays and `null`). -/
def isObjectType (v : JSVal) : Bool :=
  match v with
  | .null => true
  | .obj _ => true
  | .arr _ => true
  | _ => false

/-- Embeds `typeof v === 'string'`. -/
def isStringType (v : JSVal) : Bool :=
  match v with
  | .str _ => true
  | _ => false

/-- Embeds `typeof v === 'number'`. -/
def isNumberType (v : JSVal) : Bool :=
  match v with
  | .num _ => true
  | _ => false

/-- The string content of a value, with a fallback used only on branches that
validation has already excluded. -/
def asStringD (v : JSVal) (d : String) : String :=
  match v with
  | .str s => s
  | _ => d

/-- Embeds `Number.isInteger`: finite with no fractional part (false on NaN and ±∞). -/
def jnumIsInteger (n : JNum) : Bool :=
  match n with
  | .fin q => q.den == 1
  | _ => false

/-- The integer value of a JS number known to be an integer (fallback 0 on the
branches validation excludes). -/
def jnumToInt (n : JNum) : Int :=
  match n with
  | .fin q => q.num
  | _ => 0

/-- White space predicate used by the embedded `String.prototype.trim`. -/
def jsWS (c : Char) : Bool := c.isWhitespace

/-- Embeds `String.prototype.trim`: remove leading and trailing whitespace. -/
def jsTrim (s : String) : String :=
  ⟨((s.data.dropWhile jsWS).reverse.dropWhile jsWS).reverse⟩

/-- Result record of every validator: `{ isValid, error? }`. -/
structure ValidationResult where
  isValid : Bool
  error : Option String := none
deriving Repr, DecidableEq

/-- Embeds `validateTaskDescription`: a string, non-empty after trim, ≤500 chars. -/
def validateTaskDescription (description : JSVal) : ValidationResult :=
  match description with
  | .str s =>
    let trimmed := jsTrim s
    if trimmed.length = 0 then ⟨false, some "Task description cannot be empty"⟩
    else if trimmed.length > 500 then
      ⟨false, some "Task description too long (max 500 characters)"⟩
    else ⟨true, none⟩
  | _ => ⟨false, some "Task description must be a string"⟩

/-- Embeds `validatePriority`: one of the four priority names. -/
def validatePriority (priority : JSVal) : Bool :=
  match priority with
  | .str s => s == "low" || s == "medium" || s == "high" || s == "critical"
  | _ => false

/-- Embeds `validateDueDate`: absent/null, or a finite non-negative number. The source
checks `dueDate < 0` before `Number.isFinite`, so `-∞` reports negativity. -/
def validateDueDate (dueDate : JSVal) : ValidationResult :=
  match dueDate with
  | .null => ⟨true, none⟩
  | .undefined => ⟨true, none⟩
  | .num n =>
    match n with
    | .fin q =>
      if q < 0 then ⟨false, some "Due date cannot be negative"⟩
      else ⟨true, none⟩
    | .negInf => ⟨false, some "Due date cannot be negative"⟩
    | .nan => ⟨false, some "Due date must be a finite number"⟩
    | .posInf => ⟨false, some "Due date must be a finite number"⟩
  | _ => ⟨false, some "Due date must be a number (Unix timestamp) or null"⟩

/-- The per-element loop of `validateTags`: first failing tag wins. -/
def validateTagList (tags : List JSVal) : ValidationResult :=
  match tags with
  | [] => ⟨true, none⟩
  | tag :: rest =>
    match tag with
    | .str s =>
      if (jsTrim s).length = 0 then ⟨false, some "Tags cannot be empty"⟩
      else if s.length > 50 then ⟨false, some "Tag too long (max 50 characters)"⟩
      else validateTagList rest
    | _ => ⟨false, some "All tags must be strings"⟩

/-- Embeds `validateTags`: absent, or an array of ≤20 valid tag strings. -/
def validateTags (tags : JSVal) : ValidationResult :=
  match tags with
  | .undefined => ⟨true, none⟩
  | .arr xs =>
    if xs.length > 20 then ⟨false, some "Too many tags (max 20)"⟩
    else validateTagList xs
  | _ => ⟨false, some "Tags must be an array"⟩

/-- Embeds `v === undefined`. -/
def isUndefined (v : JSVal) : Bool :=
  match v with
  | .undefined => true
  | _ => false

/-- Embeds `validateTaskInput`: description, then optional priority, dueDate, tags. -/
def validateTaskInput (input : JSVal) : ValidationResult :=
  let descResult := validateTaskDescription (getField input "description")
  if !descResult.isValid then descResult
  else if !isUndefined (getField input "priority") && !validatePriority (getField input "priority") then
    ⟨false, some "Invalid priority level"⟩
  else
    let dueDateResult := validateDueDate (getField input "dueDate")
    if !dueDateResult.isValid then dueDateResult
    else
      let tagsResult := validateTags (getField input "tags")
      if !tagsResult.isValid then tagsResult
      else ⟨true, none⟩

/-- Embeds `validateTaskId`: a string that is non-empty after trimming. -/
def validateTaskId (id : JSVal) : ValidationResult :=
  match id with
  | .str s =>
    if (jsTrim s).length = 0 then ⟨false, some "Task ID cannot be empty"⟩
    else ⟨true, none⟩
  | _ => ⟨false, some "Task ID must be a string"⟩

/-- Embeds `validateViewType`: one of the five view names. -/
def validateViewType (view : JSVal) : Bool :=
  match view with
  | .str s => s == "all" || s == "today" || s == "upcoming" || s == "priority" || s == "completed"
  | _ => false

/-- Embeds `validateReorderIndices`: both numbers, both integers, both within
`[0, arrayLength)`. -/
def validateReorderIndices (fromIndex toIndex : JSVal) (arrayLength : Int) : ValidationResult :=
  match fromIndex, toIndex with
  | .num nf, .num nt =>
    if !(jnumIsInteger nf && jnumIsInteger nt) then ⟨false, some "Indices must be integers"⟩
    else if jnumToInt nf < 0 ∨ jnumToInt nf ≥ arrayLength then
      ⟨false, some "From index out of bounds"⟩
    else if jnumToInt nt < 0 ∨ jnumToInt nt ≥ arrayLength then
      ⟨false, some "To index out of bounds"⟩
    else ⟨true, none⟩
  | _, _ => ⟨false, some "Indices must be numbers"⟩

/-- The per-element loop of the `BATCH_DELETE`/`BATCH_COMPLETE` payload check:
every entry must be a valid task id; first failure wins. -/
def validateIdList (ids : List JSVal) : ValidationResult :=
  match ids with
  | [] => ⟨true, none⟩
  | id :: rest =>
    let result := validateTaskId id
    if !result.isValid then result
    else validateIdList rest

/-- Embeds `action.type` as read by the reducer's `switch` (empty for non-strings;
only reached after validation has established it is a string). -/
def actionTypeOf (action : JSVal) : String :=
  asStringD (getField action "type") ""

/-- Embeds `action.payload`. -/
def payloadOf (action : JSVal) : JSVal :=
  getField action "payload"

/-- The `switch (action.type)` body of `validateAction`: the per-type payload
shape contract. Unknown types are rejected. -/
def validateActionPayload (ty : String) (payload : JSVal) : ValidationResult :=
  if ty = "ADD_TASK" then
    if !(isTruthy payload && isObjectType payload) then
      ⟨false, some "ADD_TASK requires a payload object"⟩
    else validateTaskInput payload
  else if ty = "UPDATE_TASK" then
    if !(isTruthy payload && isObjectType payload) then
      ⟨false, some "UPDATE_TASK requires a payload object"⟩
    else
      let idResult := validateTaskId (getField payload "id")
      if !idResult.isValid then idResult
      else if !(isTruthy (getField payload "updates") && isObjectType (getField payload "updates")) then
        ⟨false, some "UPDATE_TASK requires updates object"⟩
      else ⟨true, none⟩
  else if ty = "DELETE_TASK" ∨ ty = "TOGGLE_COMPLETE" ∨ ty = "TOGGLE_TASK_SELECTION" then
    validateTaskId payload
  else if ty = "REORDER_TASKS" then
    if !(isTruthy payload && isObjectType payload) then
      ⟨false, some "REORDER_TASKS requires a payload object"⟩
    else ⟨true, none⟩
  else if ty = "SET_VIEW" then
    if !validateViewType payload then ⟨false, some "Invalid view type"⟩
    else ⟨true, none⟩
  else if ty = "SET_REORDER_MODE" then
    match payload with
    | .bool _ => ⟨true, none⟩
    | _ => ⟨false, some "SET_REORDER_MODE requires boolean payload"⟩
  else if ty = "SET_EDITING_TASK" then
    match payload with
    | .null => ⟨true, none⟩
    | p =>
      let result := validateTaskId p
      if !result.isValid then result else ⟨true, none⟩
  else if ty = "SET_TAG_FILTER" then
    match payload with
    | .null => ⟨true, none⟩
    | .str _ => ⟨true, none⟩
    | _ => ⟨false, some "SET_TAG_FILTER requires string or null payload"⟩
  else if ty = "BATCH_DELETE" ∨ ty = "BATCH_COMPLETE" then
    match payload with
    | .arr ids => validateIdList ids
    | _ => ⟨false, some "Batch actions require array payload"⟩
  else if ty = "SET_THEME" then
    if !(isTruthy payload && isObjectType payload) then
      ⟨false, some "SET_THEME requires theme config object"⟩
    else ⟨true, none⟩
  else if ty = "TOGGLE_MULTI_SELECT" ∨ ty = "CLEAR_SELECTIONS" then ⟨true, none⟩
  else ⟨false, some ("Unknown action type: " ++ ty)⟩

/-- Embeds `validateAction`: the action must be a truthy object with a truthy string
`type`; the payload is then checked against the per-type shape contract. -/
def validateAction (action : JSVal) : ValidationResult :=
  if !(isTruthy action && isObjectType action) then ⟨false, some "Action must be an object"⟩
  else if !(isTruthy (getField action "type") && isStringType (getField action "type")) then
    ⟨false, some "Action must have a type string"⟩
  else validateActionPayload (actionTypeOf action) (payloadOf action)

/-! ## Data model (`src/types/Task.ts`, `src/types/State.ts`) -/

/-- Task priority: one of the four enumerated levels. -/
inductive Priority where
  | low
  | medium
  | high
  | critical
deriving Repr, DecidableEq

/-- The five smart views. -/
inductive ViewType where
  | all
  | today
  | upcoming
  | priority
  | completed
deriving Repr, DecidableEq

/-- A task. `createdAt` is a millisecond timestamp; `dueDate` is a millisecond
timestamp or null (finite JS numbers, so modelled as rationals). -/
structure Task where
  id : String
  description : String
  completed : Bool
  createdAt : Int
  priority : Priority
  dueDate : Option ℚ
  tags : List String
deriving Repr, DecidableEq

/-- Transient UI state. `selectedTaskIds` is a JS `Set<string>`, modelled as an
insertion-ordered duplicate-free list. -/
structure UIState where
  selectedView : ViewType
  multiSelectMode : Bool
  selectedTaskIds : List String
  reorderMode : Bool
  editingTaskId : Option String
  selectedTag : Option String
deriving Repr, DecidableEq

/-- Aggregate application state. The `theme` slice is opaque to the core. -/
structure AppState where
  tasks : List Task
  ui : UIState
  theme : JSVal

/-- Embeds `defaultTheme` from `src/theme/themes.ts`: an external theme object, opaque
to the core; its contents never matter here. -/
def defaultTheme : JSVal := .obj []

/-- The initial application state: empty task list, default UI state. -/
def initialState : AppState :=
  { tasks := []
    ui := { selectedView := .all
            multiSelectMode := false
            selectedTaskIds := []
            reorderMode := false
            editingTaskId := none
            selectedTag := none }
    theme := defaultTheme }

/-! ## Payload decoders

The reducer's `switch` body runs only after `validateAction` accepted the
action, so the payload fields it reads have the validated shapes. The decoders
below read those fields; their fallback branches are only taken on shapes that
validation has excluded (or, for `UPDATE_TASK` merges, on field values outside
the field's TypeScript type, which cannot arise through the typed `Action`
interface). -/

/-- Embeds `generateId` (`src/utils/idGenerator.ts`):
`task_${Date.now()}_${Math.random().toString(36).substr(2, 9)}`.
The clock value and the random suffix are oracle inputs. -/
def generateId (timestamp : Int) (randomSuffix : String) : String :=
  "task_" ++ toString timestamp ++ "_" ++ randomSuffix

/-- Embeds `action.payload.priority || 'medium'`: after validation the field is
either absent (falsy, so `'medium'`) or one of the four priority names. -/
def decodePriority (v : JSVal) : Priority :=
  match v with
  | .str "low" => .low
  | .str "medium" => .medium
  | .str "high" => .high
  | .str "critical" => .critical
  | _ => .medium

/-- Embeds `action.payload.dueDate ?? null`: after validation the field is absent,
null, or a finite non-negative number. -/
def decodeDueDate (v : JSVal) : Option ℚ :=
  match v with
  | .num (.fin q) => some q
  | _ => none

/-- Embeds `action.payload.tags || []`: after validation the field is absent (falsy,
so `[]`) or an array of strings. -/
def decodeTags (v : JSVal) : List String :=
  match v with
  | .arr xs => xs.map (fun x => asStringD x "")
  | _ => []

/-- A validated batch payload: an array of id strings. -/
def decodeIdList (v : JSVal) : List String :=
  match v with
  | .arr xs => xs.map (fun x => asStringD x "")
  | _ => []

/-- A validated `SET_VIEW` payload: one of the five view names. -/
def decodeView (v : JSVal) : ViewType :=
  match v with
  | .str "today" => .today
  | .str "upcoming" => .upcoming
  | .str "priority" => .priority
  | .str "completed" => .completed
  | _ => .all

/-- A validated reorder index: a non-negative integer number. -/
def decodeIndex (v : JSVal) : Nat :=
  match v with
  | .num n => (jnumToInt n).toNat
  | _ => 0

/-- The shallow merge `{ ...task, ...action.payload.updates }` of an
`UPDATE_TASK`. A key absent from `updates` keeps the old field; a present key
overwrites it. Values outside the field's TypeScript type cannot arise through
the typed `Action` interface; the embedding keeps the old field for them. -/
def mergeTask (t : Task) (u : JSVal) : Task :=
  { id := asStringD (getField u "id") t.id
    description := asStringD (getField u "description") t.description
    completed :=
      match getField u "completed" with
      | .bool b => b
      | _ => t.completed
    createdAt :=
      match getField u "createdAt" with
      | .num (.fin q) => if q.den = 1 then q.num else t.createdAt
      | _ => t.createdAt
    priority :=
      match getField u "priority" with
      | .str "low" => .low
      | .str "medium" => .medium
      | .str "high" => .high
      | .str "critical" => .critical
      | _ => t.priority
    dueDate :=
      match getField u "dueDate" with
      | .null => none
      | .num (.fin q) => some q
      | _ => t.dueDate
    tags :=
      match getField u "tags" with
      | .arr xs => xs.map (fun x => asStringD x "")
      | _ => t.tags }

/-! ## The reducer (`src/state/reducer.ts`)

Each `case` block of the `switch` is a helper definition; `appReducer` first
runs `validateAction` (returning the state unchanged on failure, with the
error notification deferred to the external sink, which is outside the state
and not modelled) and then dispatches on `action.type`. -/

/-- Embeds `ADD_TASK`: append a freshly built task. -/
def reduceAddTask (state : AppState) (payload : JSVal) (idTime : Int) (idRand : String)
    (now : Int) : AppState :=
  let newTask : Task :=
    { id := generateId idTime idRand
      description := jsTrim (asStringD (getField payload "description") "")
      completed := false
      createdAt := now
      priority := decodePriority (getField payload "priority")
      dueDate := decodeDueDate (getField payload "dueDate")
      tags := decodeTags (getField payload "tags") }
  { state with tasks := state.tasks ++ [newTask] }

/-- Embeds `UPDATE_TASK`: no-op if the id matches no task, else shallow-merge the
updates into every task with that id. -/
def reduceUpdateTask (state : AppState) (payload : JSVal) : AppState :=
  let id := asStringD (getField payload "id") ""
  if !(state.tasks.any (fun task => task.id == id)) then state
  else
    { state with
      tasks := state.tasks.map (fun task =>
        if task.id == id then mergeTask task (getField payload "updates") else task) }

/-- Embeds `DELETE_TASK`: no-op if the id matches no task, else remove it, prune it
from `selectedTaskIds` and clear `editingTaskId` if it matched. -/
def reduceDeleteTask (state : AppState) (payload : JSVal) : AppState :=
  let id := asStringD payload ""
  if !(state.tasks.any (fun task => task.id == id)) then state
  else
    { state with
      tasks := state.tasks.filter (fun task => !(task.id == id))
      ui := { state.ui with
              selectedTaskIds := state.ui.selectedTaskIds.filter (fun i => !(i == id))
              editingTaskId :=
                if state.ui.editingTaskId = some id then none else state.ui.editingTaskId } }

/-- Embeds `TOGGLE_COMPLETE`: no-op if the id matches no task, else flip `completed`. -/
def reduceToggleComplete (state : AppState) (payload : JSVal) : AppState :=
  let id := asStringD payload ""
  if !(state.tasks.any (fun task => task.id == id)) then state
  else
    { state with
      tasks := state.tasks.map (fun task =>
        if task.id == id then { task with completed := !task.completed } else task) }

/-- Embeds `REORDER_TASKS`: validate the indices against the current length, then
splice: remove at `fromIndex`, reinsert at `toIndex` of the shortened list. -/
def reduceReorderTasks (state : AppState) (payload : JSVal) : AppState :=
  let fromJ := getField payload "fromIndex"
  let toJ := getField payload "toIndex"
  if !(validateReorderIndices fromJ toJ (state.tasks.length : Int)).isValid then state
  else
    match state.tasks[decodeIndex fromJ]? with
    | some removed =>
      { state with
        tasks := (state.tasks.eraseIdx (decodeIndex fromJ)).insertIdx (decodeIndex toJ) removed }
    | none => state

/-- Embeds `SET_VIEW`. -/
def reduceSetView (state : AppState) (payload : JSVal) : AppState :=
  { state with ui := { state.ui with selectedView := decodeView payload } }

/-- Embeds `TOGGLE_MULTI_SELECT`: flip the mode; clear selections when exiting. -/
def reduceToggleMultiSelect (state : AppState) : AppState :=
  { state with
    ui := { state.ui with
            multiSelectMode := !state.ui.multiSelectMode
            selectedTaskIds :=
              if state.ui.multiSelectMode then [] else state.ui.selectedTaskIds } }

/-- Embeds `TOGGLE_TASK_SELECTION`: no-op if the id matches no task, else toggle the
id's membership in `selectedTaskIds`. -/
def reduceToggleTaskSelection (state : AppState) (payload : JSVal) : AppState :=
  let id := asStringD payload ""
  if !(state.tasks.any (fun task => task.id == id)) then state
  else
    let newSelectedIds :=
      if state.ui.selectedTaskIds.contains id then
        state.ui.selectedTaskIds.filter (fun i => !(i == id))
      else state.ui.selectedTaskIds ++ [id]
    { state with ui := { state.ui with selectedTaskIds := newSelectedIds } }

/-- Embeds `CLEAR_SELECTIONS`. -/
def reduceClearSelections (state : AppState) : AppState :=
  { state with ui := { state.ui with selectedTaskIds := [] } }

/-- Embeds `SET_REORDER_MODE` (payload validated to be a boolean). -/
def reduceSetReorderMode (state : AppState) (payload : JSVal) : AppState :=
  { state with
    ui := { state.ui with
            reorderMode :=
              match payload with
              | .bool b => b
              | _ => state.ui.reorderMode } }

/-- Embeds `SET_EDITING_TASK`: null clears; otherwise no-op if the id matches no
task, else set `editingTaskId`. -/
def reduceSetEditingTask (state : AppState) (payload : JSVal) : AppState :=
  match payload with
  | .null => { state with ui := { state.ui with editingTaskId := none } }
  | p =>
    let id := asStringD p ""
    if !(state.tasks.any (fun task => task.id == id)) then state
    else { state with ui := { state.ui with editingTaskId := some id } }

/-- Embeds `SET_THEME`: replace the opaque theme slice. -/
def reduceSetTheme (state : AppState) (payload : JSVal) : AppState :=
  { state with theme := payload }

/-- Embeds `BATCH_DELETE`: drop payload ids matching no task; no-op if none remain,
else delete the matched tasks and reset the multi-select UI. -/
def reduceBatchDelete (state : AppState) (payload : JSVal) : AppState :=
  let existingIds := state.tasks.map (fun task => task.id)
  let validIdsToDelete := (decodeIdList payload).filter (fun id => existingIds.contains id)
  if validIdsToDelete.length = 0 then state
  else
    { state with
      tasks := state.tasks.filter (fun task => !(validIdsToDelete.contains task.id))
      ui := { state.ui with selectedTaskIds := [], multiSelectMode := false } }

/-- Embeds `BATCH_COMPLETE`: drop payload ids matching no task; no-op if none remain,
else mark the matched tasks completed and reset the multi-select UI. -/
def reduceBatchComplete (state : AppState) (payload : JSVal) : AppState :=
  let existingIds := state.tasks.map (fun task => task.id)
  let validIdsToComplete := (decodeIdList payload).filter (fun id => existingIds.contains id)
  if validIdsToComplete.length = 0 then state
  else
    { state with
      tasks := state.tasks.map (fun task =>
        if validIdsToComplete.contains task.id then { task with completed := true } else task)
      ui := { state.ui with selectedTaskIds := [], multiSelectMode := false } }

/-- Embeds `SET_TAG_FILTER` (payload validated to be a string or null). -/
def reduceSetTagFilter (state : AppState) (payload : JSVal) : AppState :=
  { state with
    ui := { state.ui with
            selectedTag :=
              match payload with
              | .str s => some s
              | _ => none } }

/-- Embeds `appReducer(state, action)`. Oracle inputs: `idTime`/`idRand` feed
`generateId`, `now` feeds the `createdAt` of an added task. Invalid actions
(and unknown types, via the `default` case) leave the state unchanged. -/
def appReducer (state : AppState) (action : JSVal) (idTime : Int) (idRand : String)
    (now : Int) : AppState :=
  if !(validateAction action).isValid then state
  else
    let ty := actionTypeOf action
    if ty = "ADD_TASK" then reduceAddTask state (payloadOf action) idTime idRand now
    else if ty = "UPDATE_TASK" then reduceUpdateTask state (payloadOf action)
    else if ty = "DELETE_TASK" then reduceDeleteTask state (payloadOf action)
    else if ty = "TOGGLE_COMPLETE" then reduceToggleComplete state (payloadOf action)
    else if ty = "REORDER_TASKS" then reduceReorderTasks state (payloadOf action)
    else if ty = "SET_VIEW" then reduceSetView state (payloadOf action)
    else if ty = "TOGGLE_MULTI_SELECT" then reduceToggleMultiSelect state
    else if ty = "TOGGLE_TASK_SELECTION" then reduceToggleTaskSelection state (payloadOf action)
    else if ty = "CLEAR_SELECTIONS" then reduceClearSelections state
    else if ty = "SET_REORDER_MODE" then reduceSetReorderMode state (payloadOf action)
    else if ty = "SET_EDITING_TASK" then reduceSetEditingTask state (payloadOf action)
    else if ty = "SET_THEME" then reduceSetTheme state (payloadOf action)
    else if ty = "BATCH_DELETE" then reduceBatchDelete state (payloadOf action)
    else if ty = "BATCH_COMPLETE" then reduceBatchComplete state (payloadOf action)
    else if ty = "SET_TAG_FILTER" then reduceSetTagFilter state (payloadOf action)
    else state

/-- An action together with the oracle inputs of the dispatch that applies it. -/
structure OAction where
  act : JSVal
  idTime : Int
  idRand : String
  now : Int

/-- Apply one queued action. -/
def applyOAction (s : AppState) (oa : OAction) : AppState :=
  appReducer s oa.act oa.idTime oa.idRand oa.now

/-- Apply a sequence of dispatched actions in submission order. -/
def runActions (s : AppState) (l : List OAction) : AppState :=
  l.foldl applyOAction s

/-! ## Selector engine (`src/state/selectors.ts`)

`createSelector` returns a closure over three mutable cache variables
(`lastInput`, `lastResult`, `hasRun`). The embedding makes the cache an
explicit value threaded through calls, and reports how many times the
underlying compute function ran (0 on a cache hit, 1 otherwise). -/

/-- The closure state of a `createSelector`-built selector. -/
structure SelCache (I R : Type) where
  lastInput : Option I := none
  lastResult : Option R := none
  hasRun : Bool := false

/-- The cache of a freshly created selector: nothing computed yet. -/
def selInit (I R : Type) : SelCache I R := {}

/-- One call's outcome: the returned value, the cache afterwards, and the
number of times the underlying compute function was invoked by this call. -/
structure SelCallResult (I R : Type) where
  value : R
  cache : SelCache I R
  computations : Nat

/-- Embeds `defaultEqualityFn`: reference equality `prev === next`, modelled as value
equality (two references to the same object are equal values). -/
def defaultEqualityFn {T : Type} [DecidableEq T] (prev next : T) : Bool :=
  decide (prev = next)

/-- Embeds `arrayEqualityFn`: same reference, or same length with element-wise
reference-equal entries. -/
def arrayEqualityFn {T : Type} [DecidableEq T] (prev next : List T) : Bool :=
  if prev = next then true
  else if prev.length ≠ next.length then false
  else (prev.zip next).all (fun p => decide (p.1 = p.2))

/-- One invocation of the closure returned by
`createSelector(inputSelector, resultFn, equalityFn)`: return the cached
result when `hasRun && lastInput !== undefined && equalityFn(lastInput,
currentInput)`, otherwise compute, cache and return a fresh result. The
`lastResult` read on a hit is modelled totally; the `none` fallback recomputes
but is unreachable from a fresh cache, since `lastResult` is written whenever
`hasRun` is set. -/
def createSelectorCall {I R : Type} (inputSelector : AppState → I) (resultFn : I → R)
    (equalityFn : I → I → Bool) (cache : SelCache I R) (state : AppState) :
    SelCallResult I R :=
  let currentInput := inputSelector state
  match cache.hasRun, cache.lastInput with
  | true, some lastInput =>
    if equalityFn lastInput currentInput then
      match cache.lastResult with
      | some r => ⟨r, cache, 0⟩
      | none =>
        let currentResult := resultFn currentInput
        ⟨currentResult, ⟨some currentInput, some currentResult, true⟩, 1⟩
    else
      let currentResult := resultFn currentInput
      ⟨currentResult, ⟨some currentInput, some currentResult, true⟩, 1⟩
  | _, _ =>
    let currentResult := resultFn currentInput
    ⟨currentResult, ⟨some currentInput, some currentResult, true⟩, 1⟩

/-! ## Smart-view selectors (`src/state/selectors.ts`)

The date helpers are embedded against the UTC/no-DST civil-time model stated
at the top of the file. -/

/-- Milliseconds per calendar day. -/
def dayMs : Int := 86400000

/-- Embeds `startOfDay`: `setHours(0, 0, 0, 0)` on the date holding the given
millisecond timestamp — floor to a multiple of `dayMs`. -/
def startOfDayMs (t : Int) : Int := dayMs * (t.fdiv dayMs)

/-- Embeds `addDays(date, n)`: `setDate(getDate() + n)` — add `n` calendar days. -/
def addDaysMs (t : Int) (n : Int) : Int := t + n * dayMs

/-- Embeds `new Date(ms)` truncates its numeric argument toward zero (`TimeClip`);
comparisons between `Date` objects compare the resulting integer time value. -/
def jsToInteger (q : ℚ) : Int := q.num.tdiv (q.den : Int)

/-- The underlying compute function of `selectUpcomingTasks` at a fixed
current time `now`: keep tasks whose `dueDate` is truthy, that are not
completed, and whose due date lies between tomorrow's midnight and the
midnight one week from today's midnight (both inclusive). -/
def selectUpcomingTasksCompute (now : Int) (tasks : List Task) : List Task :=
  let today := startOfDayMs now
  let tomorrow := addDaysMs today 1
  let weekFromNow := addDaysMs today 7
  tasks.filter (fun task =>
    match task.dueDate with
    | none => false
    | some d =>
      if d == 0 || task.completed then false
      else decide (tomorrow ≤ jsToInteger d) && decide (jsToInteger d ≤ weekFromNow))

/-- The underlying compute function of `selectCompletedTasks`: tasks with
`completed === true`. -/
def selectCompletedTasksCompute (tasks : List Task) : List Task :=
  tasks.filter (fun task => task.completed)

/-! ## Statement-side action constructors

The typed `Action` values of `src/types/State.ts` are tagged objects
`{ type, payload }`; the constructors below build their runtime shapes. -/

/-- An action object `{ type: ty, payload }`. -/
def mkAction (ty : String) (payload : JSVal) : JSVal :=
  .obj [("type", .str ty), ("payload", payload)]

/-- An `UPDATE_TASK` payload `{ id, updates }`. -/
def mkUpdatePayload (id : String) (updates : JSVal) : JSVal :=
  .obj [("id", .str id), ("updates", updates)]

/-- A `REORDER_TASKS` payload `{ fromIndex, toIndex }`. -/
def mkReorderPayload (fromIndex toIndex : JSVal) : JSVal :=
  .obj [("fromIndex", fromIndex), ("toIndex", toIndex)]

/-! ## Helper lemmas -/

theorem actionTypeOf_mkAction (ty : String) (p : JSVal) :
    actionTypeOf (mkAction ty p) = ty := rfl

theorem payloadOf_mkAction (ty : String) (p : JSVal) :
    payloadOf (mkAction ty p) = p := rfl

theorem validateAction_mkAction (ty : String) (p : JSVal) (h : ty ≠ "") :
    validateAction (mkAction ty p) = validateActionPayload ty p := by
  have h1 : isTruthy (mkAction ty p) = true := rfl
  have h2 : isObjectType (mkAction ty p) = true := rfl
  have h3 : getField (mkAction ty p) "type" = .str ty := rfl
  have h4 : isTruthy (.str ty) = true := by simp [isTruthy, h]
  have h5 : isStringType (.str ty) = true := rfl
  simp [validateAction, h1, h2, h3, h4, h5, actionTypeOf_mkAction, payloadOf_mkAction]

theorem appReducer_invalid (s : AppState) (a : JSVal) (idTime : Int) (idRand : String)
    (now : Int) (h : (validateAction a).isValid = false) :
    appReducer s a idTime idRand now = s := by
  simp [appReducer, h]

theorem tasks_any_eq_false {tasks : List Task} {id : String}
    (h : id ∉ tasks.map (fun t => t.id)) :
    tasks.any (fun t => t.id == id) = false := by
  rw [Bool.eq_false_iff]
  intro hc
  rcases List.any_eq_true.mp hc with ⟨t, ht, he⟩
  exact h (List.mem_map.mpr ⟨t, ht, beq_iff_eq.mp he⟩)

theorem appReducer_eq_branch (s : AppState) (a : JSVal) (idTime : Int) (idRand : String)
    (now : Int) (hv : (validateAction a).isValid = true) :
    appReducer s a idTime idRand now =
      (if actionTypeOf a = "ADD_TASK" then reduceAddTask s (payloadOf a) idTime idRand now
       else if actionTypeOf a = "UPDATE_TASK" then reduceUpdateTask s (payloadOf a)
       else if actionTypeOf a = "DELETE_TASK" then reduceDeleteTask s (payloadOf a)
       else if actionTypeOf a = "TOGGLE_COMPLETE" then reduceToggleComplete s (payloadOf a)
       else if actionTypeOf a = "REORDER_TASKS" then reduceReorderTasks s (payloadOf a)
       else if actionTypeOf a = "SET_VIEW" then reduceSetView s (payloadOf a)
       else if actionTypeOf a = "TOGGLE_MULTI_SELECT" then reduceToggleMultiSelect s
       else if actionTypeOf a = "TOGGLE_TASK_SELECTION" then
         reduceToggleTaskSelection s (payloadOf a)
       else if actionTypeOf a = "CLEAR_SELECTIONS" then reduceClearSelections s
       else if actionTypeOf a = "SET_REORDER_MODE" then reduceSetReorderMode s (payloadOf a)
       else if actionTypeOf a = "SET_EDITING_TASK" then reduceSetEditingTask s (payloadOf a)
       else if actionTypeOf a = "SET_THEME" then reduceSetTheme s (payloadOf a)
       else if actionTypeOf a = "BATCH_DELETE" then reduceBatchDelete s (payloadOf a)
       else if actionTypeOf a = "BATCH_COMPLETE" then reduceBatchComplete s (payloadOf a)
       else if actionTypeOf a = "SET_TAG_FILTER" then reduceSetTagFilter s (payloadOf a)
       else s) := by
  simp only [appReducer, hv, Bool.not_true, Bool.false_eq_true, if_false]

/-! ## C1 -/

/-- C1: every action `validateAction` rejects (malformed payload or a type
outside the fifteen known action types) leaves the state unchanged, and every
`DELETE_TASK`, `TOGGLE_COMPLETE`, `SET_EDITING_TASK`, `TOGGLE_TASK_SELECTION`
or `UPDATE_TASK` action whose payload id matches no task in `s.tasks` leaves
the state unchanged. -/
theorem c1_rejected_action_and_stale_id_noop (s : AppState) (idTime : Int) (idRand : String)
    (now : Int) :
    (∀ a : JSVal, (validateAction a).isValid = false → appReducer s a idTime idRand now = s) ∧
    (∀ ty id,
      ty ∈ (["DELETE_TASK", "TOGGLE_COMPLETE", "SET_EDITING_TASK",
             "TOGGLE_TASK_SELECTION"] : List String) →
      id ∉ s.tasks.map (fun t => t.id) →
      appReducer s (mkAction ty (.str id)) idTime idRand now = s) ∧
    (∀ id (updates : JSVal), id ∉ s.tasks.map (fun t => t.id) →
      appReducer s (mkAction "UPDATE_TASK" (mkUpdatePayload id updates)) idTime idRand now = s) := by
  refine ⟨fun a h => appReducer_invalid s a _ _ _ h, fun ty id hty hid => ?_, fun id u hid => ?_⟩
  · by_cases hv : (validateAction (mkAction ty (.str id))).isValid = true
    · rw [appReducer_eq_branch s _ _ _ _ hv]
      have hany := tasks_any_eq_false hid
      simp only [List.mem_cons, List.mem_singleton, List.not_mem_nil, or_false] at hty
      rcases hty with h1 | h1 | h1 | h1 <;> subst h1 <;>
        simp [actionTypeOf_mkAction, payloadOf_mkAction, reduceDeleteTask,
              reduceToggleComplete, reduceSetEditingTask, reduceToggleTaskSelection,
              asStringD, hany]
    · exact appReducer_invalid s _ _ _ _ (Bool.not_eq_true _ ▸ Bool.of_not_eq_true hv)
  · by_cases hv : (validateAction (mkAction "UPDATE_TASK" (mkUpdatePayload id u))).isValid = true
    · rw [appReducer_eq_branch s _ _ _ _ hv]
      have hgf : getField (mkUpdatePayload id u) "id" = .str id := rfl
      simp [actionTypeOf_mkAction, payloadOf_mkAction, reduceUpdateTask, hgf, asStringD,
            tasks_any_eq_false hid]
    · exact appReducer_invalid s _ _ _ _ (Bool.not_eq_true _ ▸ Bool.of_not_eq_true hv)

/-- Witness for C1: a `DELETE_TASK` whose id matches no task, and a
non-object action, both leave the initial state unchanged. -/
theorem c1_witness :
    appReducer initialState (mkAction "DELETE_TASK" (.str "missing")) 0 "r" 0 = initialState ∧
    appReducer initialState (.str "junk") 0 "r" 0 = initialState :=
  ⟨(c1_rejected_action_and_stale_id_noop initialState 0 "r" 0).2.1 "DELETE_TASK" "missing"
      (by decide) (by decide),
   (c1_rejected_action_and_stale_id_noop initialState 0 "r" 0).1 (.str "junk") (by decide)⟩

theorem tasks_any_eq_true {tasks : List Task} {id : String}
    (h : id ∈ tasks.map (fun t => t.id)) :
    tasks.any (fun t => t.id == id) = true := by
  rcases List.mem_map.mp h with ⟨t, ht, he⟩
  exact List.any_eq_true.mpr ⟨t, ht, beq_iff_eq.mpr he⟩

theorem appReducer_addTask (s : AppState) (p : JSVal) (idTime : Int) (idRand : String)
    (now : Int) (hv : (validateAction (mkAction "ADD_TASK" p)).isValid = true) :
    appReducer s (mkAction "ADD_TASK" p) idTime idRand now = reduceAddTask s p idTime idRand now := by
  rw [appReducer_eq_branch _ _ _ _ _ hv]
  simp [actionTypeOf_mkAction, payloadOf_mkAction]

theorem appReducer_updateTask (s : AppState) (p : JSVal) (idTime : Int) (idRand : String)
    (now : Int) (hv : (validateAction (mkAction "UPDATE_TASK" p)).isValid = true) :
    appReducer s (mkAction "UPDATE_TASK" p) idTime idRand now = reduceUpdateTask s p := by
  rw [appReducer_eq_branch _ _ _ _ _ hv]
  simp [actionTypeOf_mkAction, payloadOf_mkAction]

theorem appReducer_toggleComplete (s : AppState) (p : JSVal) (idTime : Int) (idRand : String)
    (now : Int) (hv : (validateAction (mkAction "TOGGLE_COMPLETE" p)).isValid = true) :
    appReducer s (mkAction "TOGGLE_COMPLETE" p) idTime idRand now = reduceToggleComplete s p := by
  rw [appReducer_eq_branch _ _ _ _ _ hv]
  simp [actionTypeOf_mkAction, payloadOf_mkAction]

theorem appReducer_reorderTasks (s : AppState) (p : JSVal) (idTime : Int) (idRand : String)
    (now : Int) (hv : (validateAction (mkAction "REORDER_TASKS" p)).isValid = true) :
    appReducer s (mkAction "REORDER_TASKS" p) idTime idRand now = reduceReorderTasks s p := by
  rw [appReducer_eq_branch _ _ _ _ _ hv]
  simp [actionTypeOf_mkAction, payloadOf_mkAction]

theorem appReducer_batchDelete (s : AppState) (p : JSVal) (idTime : Int) (idRand : String)
    (now : Int) (hv : (validateAction (mkAction "BATCH_DELETE" p)).isValid = true) :
    appReducer s (mkAction "BATCH_DELETE" p) idTime idRand now = reduceBatchDelete s p := by
  rw [appReducer_eq_branch _ _ _ _ _ hv]
  simp [actionTypeOf_mkAction, payloadOf_mkAction]

/-- Two applications of a self-inverse task transformer cancel on a list. -/
theorem map_map_self {g : Task → Task} (hg : ∀ t, g (g t) = t) (l : List Task) :
    (l.map g).map g = l := by
  rw [List.map_map]
  have : g ∘ g = id := funext hg
  rw [this, List.map_id]

/-- A projection untouched by a task transformer is preserved by mapping it. -/
theorem map_map_proj {α : Type} {g : Task → Task} (proj : Task → α)
    (hp : ∀ t, proj (g t) = proj t) (l : List Task) :
    (l.map g).map proj = l.map proj := by
  rw [List.map_map]
  have : proj ∘ g = proj := funext hp
  rw [this]

/-! ## C9 -/

/-- C9: applying `TOGGLE_COMPLETE` twice with the id of a task present in
`s.tasks` returns the state to its exact original value, and the first
application changes no task field other than the matching task's `completed`
flag (ids, descriptions, creation times, priorities, due dates and tags are
all positionally unchanged, non-matching tasks are untouched, and `ui` and
`theme` are untouched). -/
theorem c9_toggle_complete_roundtrip (s : AppState) (id : String)
    (i1 i2 n1 n2 : Int) (r1 r2 : String)
    (h : id ∈ s.tasks.map (fun t => t.id)) :
    appReducer (appReducer s (mkAction "TOGGLE_COMPLETE" (.str id)) i1 r1 n1)
        (mkAction "TOGGLE_COMPLETE" (.str id)) i2 r2 n2 = s ∧
    ((appReducer s (mkAction "TOGGLE_COMPLETE" (.str id)) i1 r1 n1).ui = s.ui ∧
     (appReducer s (mkAction "TOGGLE_COMPLETE" (.str id)) i1 r1 n1).theme = s.theme ∧
     (appReducer s (mkAction "TOGGLE_COMPLETE" (.str id)) i1 r1 n1).tasks.map (fun t => t.id) =
       s.tasks.map (fun t => t.id) ∧
     (appReducer s (mkAction "TOGGLE_COMPLETE" (.str id)) i1 r1 n1).tasks.map
         (fun t => t.description) = s.tasks.map (fun t => t.description) ∧
     (appReducer s (mkAction "TOGGLE_COMPLETE" (.str id)) i1 r1 n1).tasks.map
         (fun t => t.createdAt) = s.tasks.map (fun t => t.createdAt) ∧
     (appReducer s (mkAction "TOGGLE_COMPLETE" (.str id)) i1 r1 n1).tasks.map
         (fun t => t.priority) = s.tasks.map (fun t => t.priority) ∧
     (appReducer s (mkAction "TOGGLE_COMPLETE" (.str id)) i1 r1 n1).tasks.map
         (fun t => t.dueDate) = s.tasks.map (fun t => t.dueDate) ∧
     (appReducer s (mkAction "TOGGLE_COMPLETE" (.str id)) i1 r1 n1).tasks.map
         (fun t => t.tags) = s.tasks.map (fun t => t.tags) ∧
     (∀ t ∈ s.tasks, t.id ≠ id →
        t ∈ (appReducer s (mkAction "TOGGLE_COMPLETE" (.str id)) i1 r1 n1).tasks)) := by
  by_cases hv : (validateAction (mkAction "TOGGLE_COMPLETE" (.str id))).isValid = true
  · have hg : ∀ t : Task,
        ((fun task => if task.id == id then { task with completed := !task.completed } else task)
          ((fun task => if task.id == id then { task with completed := !task.completed } else task)
            t)) = t := by
      intro t
      by_cases hb : (t.id == id) = true <;> simp [hb, Bool.not_not]
    have h1 : appReducer s (mkAction "TOGGLE_COMPLETE" (.str id)) i1 r1 n1 =
        { s with
          tasks := s.tasks.map (fun task =>
            if task.id == id then { task with completed := !task.completed } else task) } := by
      rw [appReducer_toggleComplete s _ _ _ _ hv]
      simp [reduceToggleComplete, asStringD, tasks_any_eq_true h]
    have hid1 : ((s.tasks.map (fun task =>
        if task.id == id then { task with completed := !task.completed } else task)).map
          (fun t => t.id)) = s.tasks.map (fun t => t.id) := by
      apply map_map_proj
      intro t
      by_cases hb : (t.id == id) = true <;> simp [hb]
    have h2 : appReducer (appReducer s (mkAction "TOGGLE_COMPLETE" (.str id)) i1 r1 n1)
        (mkAction "TOGGLE_COMPLETE" (.str id)) i2 r2 n2 = s := by
      rw [h1, appReducer_toggleComplete _ _ _ _ _ hv]
      have hmem : id ∈ (s.tasks.map (fun task =>
          if task.id == id then { task with completed := !task.completed } else task)).map
            (fun t => t.id) := by rw [hid1]; exact h
      simp only [reduceToggleComplete, asStringD, tasks_any_eq_true hmem, Bool.not_true,
        Bool.false_eq_true, if_false]
      rw [map_map_self hg]
    have h1t : (appReducer s (mkAction "TOGGLE_COMPLETE" (.str id)) i1 r1 n1).tasks =
        s.tasks.map (fun task =>
          if task.id == id then { task with completed := !task.completed } else task) := by
      rw [h1]
    refine ⟨h2, by rw [h1], by rw [h1], ?_, ?_, ?_, ?_, ?_, ?_, ?_⟩
    · rw [h1t]; exact hid1
    · rw [h1t]
      exact map_map_proj _ (fun t => by by_cases hb : (t.id == id) = true <;> simp [hb]) _
    · rw [h1t]
      exact map_map_proj _ (fun t => by by_cases hb : (t.id == id) = true <;> simp [hb]) _
    · rw [h1t]
      exact map_map_proj _ (fun t => by by_cases hb : (t.id == id) = true <;> simp [hb]) _
    · rw [h1t]
      exact map_map_proj _ (fun t => by by_cases hb : (t.id == id) = true <;> simp [hb]) _
    · rw [h1t]
      exact map_map_proj _ (fun t => by by_cases hb : (t.id == id) = true <;> simp [hb]) _
    · intro t ht hne
      rw [h1t]
      have he : (if t.id == id then { t with completed := !t.completed } else t) = t := by
        simp [beq_iff_eq, hne]
      exact he ▸ List.mem_map.mpr ⟨t, ht, rfl⟩
  · have hf : (validateAction (mkAction "TOGGLE_COMPLETE" (.str id))).isValid = false :=
      Bool.not_eq_true _ ▸ Bool.of_not_eq_true hv
    rw [appReducer_invalid _ _ _ _ _ hf, appReducer_invalid _ _ _ _ _ hf]
    exact ⟨rfl, rfl, rfl, rfl, rfl, rfl, rfl, rfl, rfl, fun t ht _ => ht⟩

/-- Witness for C9: toggling the only task of a one-task state twice restores
the original state. -/
theorem c9_witness :
    appReducer (appReducer
        { tasks := [{ id := "a", description := "walk", completed := false, createdAt := 0,
                      priority := .medium, dueDate := none, tags := [] }]
          ui := initialState.ui, theme := defaultTheme }
        (mkAction "TOGGLE_COMPLETE" (.str "a")) 1 "r" 1)
      (mkAction "TOGGLE_COMPLETE" (.str "a")) 2 "r" 2 =
      { tasks := [{ id := "a", description := "walk", completed := false, createdAt := 0,
                    priority := .medium, dueDate := none, tags := [] }]
        ui := initialState.ui, theme := defaultTheme } :=
  (c9_toggle_complete_roundtrip
    { tasks := [{ id := "a", description := "walk", completed := false, createdAt := 0,
                  priority := .medium, dueDate := none, tags := [] }]
      ui := initialState.ui, theme := defaultTheme }
    "a" 1 2 1 2 "r" "r" (by decide)).1

/-! ## C2 -/

/-- The multi-select invariant claimed by the spec: when `multiSelectMode` is
off, the selection set is empty. -/
def SelInv (s : AppState) : Prop :=
  s.ui.multiSelectMode = false → s.ui.selectedTaskIds = []

/-- A dispatch trace in which `TOGGLE_TASK_SELECTION` is only ever dispatched
while `multiSelectMode` is on. -/
def GuardedSel : AppState → List OAction → Prop
  | _, [] => True
  | s, oa :: rest =>
    (actionTypeOf oa.act = "TOGGLE_TASK_SELECTION" → s.ui.multiSelectMode = true) ∧
    GuardedSel (applyOAction s oa) rest

/-- A trace reaching a state with `multiSelectMode = false` and a non-empty
selection: add a task, then toggle its selection while multi-select is off. -/
def c2Trace : List OAction :=
  [⟨mkAction "ADD_TASK" (.obj [("description", .str "Buy milk")]), 1, "r", 1⟩,
   ⟨mkAction "TOGGLE_TASK_SELECTION" (.str "task_1_r"), 2, "r", 2⟩]

set_option maxHeartbeats 1000000 in
/-- Counterexample to C2 as stated: the reducer accepts
`TOGGLE_TASK_SELECTION` regardless of `multiSelectMode`, so a state with
`multiSelectMode = false` and a selected task is reachable from the initial
state. -/
theorem c2_counterexample :
    (runActions initialState c2Trace).ui.multiSelectMode = false ∧
    (runActions initialState c2Trace).ui.selectedTaskIds = ["task_1_r"] := by
  decide

theorem appReducer_ty_addTask (s : AppState) (a : JSVal) (idTime : Int) (idRand : String)
    (now : Int) (hv : (validateAction a).isValid = true) (hty : actionTypeOf a = "ADD_TASK") :
    appReducer s a idTime idRand now = reduceAddTask s (payloadOf a) idTime idRand now := by
  rw [appReducer_eq_branch _ _ _ _ _ hv, hty]
  simp

theorem appReducer_ty_updateTask (s : AppState) (a : JSVal) (idTime : Int) (idRand : String)
    (now : Int) (hv : (validateAction a).isValid = true) (hty : actionTypeOf a = "UPDATE_TASK") :
    appReducer s a idTime idRand now = reduceUpdateTask s (payloadOf a) := by
  rw [appReducer_eq_branch _ _ _ _ _ hv, hty]
  simp

theorem appReducer_ty_deleteTask (s : AppState) (a : JSVal) (idTime : Int) (idRand : String)
    (now : Int) (hv : (validateAction a).isValid = true) (hty : actionTypeOf a = "DELETE_TASK") :
    appReducer s a idTime idRand now = reduceDeleteTask s (payloadOf a) := by
  rw [appReducer_eq_branch _ _ _ _ _ hv, hty]
  simp

theorem appReducer_ty_toggleComplete (s : AppState) (a : JSVal) (idTime : Int) (idRand : String)
    (now : Int) (hv : (validateAction a).isValid = true)
    (hty : actionTypeOf a = "TOGGLE_COMPLETE") :
    appReducer s a idTime idRand now = reduceToggleComplete s (payloadOf a) := by
  rw [appReducer_eq_branch _ _ _ _ _ hv, hty]
  simp

theorem appReducer_ty_reorderTasks (s : AppState) (a : JSVal) (idTime : Int) (idRand : String)
    (now : Int) (hv : (validateAction a).isValid = true)
    (hty : actionTypeOf a = "REORDER_TASKS") :
    appReducer s a idTime idRand now = reduceReorderTasks s (payloadOf a) := by
  rw [appReducer_eq_branch _ _ _ _ _ hv, hty]
  simp

theorem appReducer_ty_setView (s : AppState) (a : JSVal) (idTime : Int) (idRand : String)
    (now : Int) (hv : (validateAction a).isValid = true) (hty : actionTypeOf a = "SET_VIEW") :
    appReducer s a idTime idRand now = reduceSetView s (payloadOf a) := by
  rw [appReducer_eq_branch _ _ _ _ _ hv, hty]
  simp

theorem appReducer_ty_toggleMultiSelect (s : AppState) (a : JSVal) (idTime : Int)
    (idRand : String) (now : Int) (hv : (validateAction a).isValid = true)
    (hty : actionTypeOf a = "TOGGLE_MULTI_SELECT") :
    appReducer s a idTime idRand now = reduceToggleMultiSelect s := by
  rw [appReducer_eq_branch _ _ _ _ _ hv, hty]
  simp

theorem appReducer_ty_toggleTaskSelection (s : AppState) (a : JSVal) (idTime : Int)
    (idRand : String) (now : Int) (hv : (validateAction a).isValid = true)
    (hty : actionTypeOf a = "TOGGLE_TASK_SELECTION") :
    appReducer s a idTime idRand now = reduceToggleTaskSelection s (payloadOf a) := by
  rw [appReducer_eq_branch _ _ _ _ _ hv, hty]
  simp

theorem appReducer_ty_clearSelections (s : AppState) (a : JSVal) (idTime : Int)
    (idRand : String) (now : Int) (hv : (validateAction a).isValid = true)
    (hty : actionTypeOf a = "CLEAR_SELECTIONS") :
    appReducer s a idTime idRand now = reduceClearSelections s := by
  rw [appReducer_eq_branch _ _ _ _ _ hv, hty]
  simp

theorem appReducer_ty_setReorderMode (s : AppState) (a : JSVal) (idTime : Int)
    (idRand : String) (now : Int) (hv : (validateAction a).isValid = true)
    (hty : actionTypeOf a = "SET_REORDER_MODE") :
    appReducer s a idTime idRand now = reduceSetReorderMode s (payloadOf a) := by
  rw [appReducer_eq_branch _ _ _ _ _ hv, hty]
  simp

theorem appReducer_ty_setEditingTask (s : AppState) (a : JSVal) (idTime : Int)
    (idRand : String) (now : Int) (hv : (validateAction a).isValid = true)
    (hty : actionTypeOf a = "SET_EDITING_TASK") :
    appReducer s a idTime idRand now = reduceSetEditingTask s (payloadOf a) := by
  rw [appReducer_eq_branch _ _ _ _ _ hv, hty]
  simp

theorem appReducer_ty_setTheme (s : AppState) (a : JSVal) (idTime : Int)
    (idRand : String) (now : Int) (hv : (validateAction a).isValid = true)
    (hty : actionTypeOf a = "SET_THEME") :
    appReducer s a idTime idRand now = reduceSetTheme s (payloadOf a) := by
  rw [appReducer_eq_branch _ _ _ _ _ hv, hty]
  simp

theorem appReducer_ty_batchDelete (s : AppState) (a : JSVal) (idTime : Int)
    (idRand : String) (now : Int) (hv : (validateAction a).isValid = true)
    (hty : actionTypeOf a = "BATCH_DELETE") :
    appReducer s a idTime idRand now = reduceBatchDelete s (payloadOf a) := by
  rw [appReducer_eq_branch _ _ _ _ _ hv, hty]
  simp

theorem appReducer_ty_batchComplete (s : AppState) (a : JSVal) (idTime : Int)
    (idRand : String) (now : Int) (hv : (validateAction a).isValid = true)
    (hty : actionTypeOf a = "BATCH_COMPLETE") :
    appReducer s a idTime idRand now = reduceBatchComplete s (payloadOf a) := by
  rw [appReducer_eq_branch _ _ _ _ _ hv, hty]
  simp

theorem appReducer_ty_setTagFilter (s : AppState) (a : JSVal) (idTime : Int)
    (idRand : String) (now : Int) (hv : (validateAction a).isValid = true)
    (hty : actionTypeOf a = "SET_TAG_FILTER") :
    appReducer s a idTime idRand now = reduceSetTagFilter s (payloadOf a) := by
  rw [appReducer_eq_branch _ _ _ _ _ hv, hty]
  simp

theorem selInv_step (s : AppState) (oa : OAction) (hs : SelInv s)
    (hg : actionTypeOf oa.act = "TOGGLE_TASK_SELECTION" -> s.ui.multiSelectMode = true) :
    SelInv (applyOAction s oa) := by
  unfold applyOAction
  by_cases hv : (validateAction oa.act).isValid = true
  · by_cases h1 : actionTypeOf oa.act = "ADD_TASK"
    · rw [appReducer_ty_addTask _ _ _ _ _ hv h1]
      exact fun hm => hs hm
    by_cases h2 : actionTypeOf oa.act = "UPDATE_TASK"
    · rw [appReducer_ty_updateTask _ _ _ _ _ hv h2]
      simp only [reduceUpdateTask]
      split <;> exact fun hm => hs hm
    by_cases h3 : actionTypeOf oa.act = "DELETE_TASK"
    · rw [appReducer_ty_deleteTask _ _ _ _ _ hv h3]
      simp only [reduceDeleteTask]
      split
      · exact hs
      · intro hm
        show s.ui.selectedTaskIds.filter _ = []
        rw [hs hm]
        rfl
    by_cases h4 : actionTypeOf oa.act = "TOGGLE_COMPLETE"
    · rw [appReducer_ty_toggleComplete _ _ _ _ _ hv h4]
      simp only [reduceToggleComplete]
      split <;> exact fun hm => hs hm
    by_cases h5 : actionTypeOf oa.act = "REORDER_TASKS"
    · rw [appReducer_ty_reorderTasks _ _ _ _ _ hv h5]
      simp only [reduceReorderTasks]
      split
      · exact fun hm => hs hm
      · split <;> exact fun hm => hs hm
    by_cases h6 : actionTypeOf oa.act = "SET_VIEW"
    · rw [appReducer_ty_setView _ _ _ _ _ hv h6]
      exact fun hm => hs hm
    by_cases h7 : actionTypeOf oa.act = "TOGGLE_MULTI_SELECT"
    · rw [appReducer_ty_toggleMultiSelect _ _ _ _ _ hv h7]
      intro hm
      have hmm : (!s.ui.multiSelectMode) = false := hm
      show (if s.ui.multiSelectMode then ([] : List String) else s.ui.selectedTaskIds) = []
      cases hb : s.ui.multiSelectMode
      · rw [hb] at hmm
        simp at hmm
      · rfl
    by_cases h8 : actionTypeOf oa.act = "TOGGLE_TASK_SELECTION"
    · rw [appReducer_ty_toggleTaskSelection _ _ _ _ _ hv h8]
      simp only [reduceToggleTaskSelection]
      split
      · exact hs
      · intro hm
        have hmm : s.ui.multiSelectMode = false := hm
        rw [hg h8] at hmm
        simp at hmm
    by_cases h9 : actionTypeOf oa.act = "CLEAR_SELECTIONS"
    · rw [appReducer_ty_clearSelections _ _ _ _ _ hv h9]
      exact fun _ => rfl
    by_cases h10 : actionTypeOf oa.act = "SET_REORDER_MODE"
    · rw [appReducer_ty_setReorderMode _ _ _ _ _ hv h10]
      exact fun hm => hs hm
    by_cases h11 : actionTypeOf oa.act = "SET_EDITING_TASK"
    · rw [appReducer_ty_setEditingTask _ _ _ _ _ hv h11]
      simp only [reduceSetEditingTask]
      split
      · exact fun hm => hs hm
      · split
        · exact hs
        · exact fun hm => hs hm
    by_cases h12 : actionTypeOf oa.act = "SET_THEME"
    · rw [appReducer_ty_setTheme _ _ _ _ _ hv h12]
      exact fun hm => hs hm
    by_cases h13 : actionTypeOf oa.act = "BATCH_DELETE"
    · rw [appReducer_ty_batchDelete _ _ _ _ _ hv h13]
      simp only [reduceBatchDelete]
      split
      · exact hs
      · exact fun _ => rfl
    by_cases h14 : actionTypeOf oa.act = "BATCH_COMPLETE"
    · rw [appReducer_ty_batchComplete _ _ _ _ _ hv h14]
      simp only [reduceBatchComplete]
      split
      · exact hs
      · exact fun _ => rfl
    by_cases h15 : actionTypeOf oa.act = "SET_TAG_FILTER"
    · rw [appReducer_ty_setTagFilter _ _ _ _ _ hv h15]
      exact fun hm => hs hm
    rw [appReducer_eq_branch _ _ _ _ _ hv]
    rw [if_neg h1, if_neg h2, if_neg h3, if_neg h4, if_neg h5, if_neg h6, if_neg h7,
        if_neg h8, if_neg h9, if_neg h10, if_neg h11, if_neg h12, if_neg h13, if_neg h14,
        if_neg h15]
    exact hs
  · rw [appReducer_invalid _ _ _ _ _ (Bool.not_eq_true _ ▸ Bool.of_not_eq_true hv)]
    exact hs

theorem selInv_runActions (l : List OAction) :
    ∀ s : AppState, SelInv s → GuardedSel s l → SelInv (runActions s l) := by
  induction l with
  | nil => exact fun s hs _ => hs
  | cons oa rest ih =>
    intro s hs hg
    exact ih (applyOAction s oa) (selInv_step s oa hs hg.1) hg.2

/-- C2 (amended): in every state reachable from the initial state by a
dispatch sequence in which `TOGGLE_TASK_SELECTION` is only dispatched while
`multiSelectMode` is on, `multiSelectMode = false` implies `selectedTaskIds`
is empty. (The reducer itself accepts `TOGGLE_TASK_SELECTION` in any mode;
see the counterexample.) -/
theorem c2_multiselect_invariant_guarded (l : List OAction)
    (h : GuardedSel initialState l) :
    SelInv (runActions initialState l) :=
  selInv_runActions l initialState (fun _ => rfl) h

/-- Witness for C2 (amended): a guarded one-action trace. -/
theorem c2_witness :
    SelInv (runActions initialState [⟨mkAction "TOGGLE_MULTI_SELECT" .null, 0, "r", 0⟩]) :=
  c2_multiselect_invariant_guarded _ ⟨fun h => absurd h (by decide), trivial⟩

/-! ## C3 -/

theorem dropWhile_head_not {α : Type} (p : α → Bool) :
    ∀ (l : List α) (x : α), (l.dropWhile p).head? = some x → p x = false := by
  intro l
  induction l with
  | nil => intro x h; cases h
  | cons a t ih =>
    intro x h
    rw [List.dropWhile_cons] at h
    by_cases hp : p a = true
    · exact ih x (by rwa [if_pos hp] at h)
    · rw [if_neg hp] at h
      cases h
      exact Bool.of_not_eq_true hp ▸ rfl

theorem dropWhile_eq_self_of_head {α : Type} (p : α → Bool) (l : List α)
    (h : ∀ x, l.head? = some x → p x = false) : l.dropWhile p = l := by
  cases l with
  | nil => rfl
  | cons a t =>
    rw [List.dropWhile_cons, if_neg]
    rw [h a rfl]
    simp

/-- Trimming is idempotent: the head and the last element of a trimmed string
are not whitespace, so a second trim removes nothing. -/
theorem jsTrim_idem (s : String) : jsTrim (jsTrim s) = jsTrim s := by
  unfold jsTrim
  have hdata : (String.mk (((s.data.dropWhile jsWS).reverse.dropWhile jsWS).reverse)).data =
      ((s.data.dropWhile jsWS).reverse.dropWhile jsWS).reverse := rfl
  rw [hdata]
  have h1 : (((s.data.dropWhile jsWS).reverse.dropWhile jsWS).reverse).dropWhile jsWS =
      ((s.data.dropWhile jsWS).reverse.dropWhile jsWS).reverse := by
    apply dropWhile_eq_self_of_head
    intro x hx
    rcases List.dropWhile_suffix (l := (s.data.dropWhile jsWS).reverse) jsWS with ⟨t, ht⟩
    have hl1 : s.data.dropWhile jsWS =
        ((s.data.dropWhile jsWS).reverse.dropWhile jsWS).reverse ++ t.reverse := by
      have := congrArg List.reverse ht
      simpa using this.symm
    rcases hr : ((s.data.dropWhile jsWS).reverse.dropWhile jsWS).reverse with _ | ⟨a, t'⟩
    · rw [hr] at hx; cases hx
    · rw [hr] at hx
      cases hx
      apply dropWhile_head_not jsWS s.data
      rw [hl1, hr]
      rfl
  rw [h1, List.reverse_reverse]
  have h2 : ((s.data.dropWhile jsWS).reverse.dropWhile jsWS).dropWhile jsWS =
      (s.data.dropWhile jsWS).reverse.dropWhile jsWS := by
    apply dropWhile_eq_self_of_head
    intro x hx
    exact dropWhile_head_not jsWS _ x hx
  rw [h2]

theorem string_ne_empty_of_length {s : String} (h : s.length ≠ 0) : s ≠ "" :=
  fun he => h (he ▸ rfl)

theorem validateTaskDescription_isValid {v : JSVal}
    (h : (validateTaskDescription v).isValid = true) :
    ∃ d : String, v = .str d ∧ (jsTrim d).length ≠ 0 ∧ (jsTrim d).length ≤ 500 := by
  cases v with
  | str d =>
    simp only [validateTaskDescription] at h
    split_ifs at h with h1 h2
    exact ⟨d, rfl, h1, by omega⟩
  | null => cases h
  | undefined => cases h
  | bool b => cases h
  | num n => cases h
  | arr xs => cases h
  | obj fs => cases h

theorem validateActionPayload_addTask (p : JSVal) :
    validateActionPayload "ADD_TASK" p =
      if !(isTruthy p && isObjectType p) then
        ⟨false, some "ADD_TASK requires a payload object"⟩
      else validateTaskInput p := rfl

/-- Validity of the whole action survives to the payload check. -/
theorem validateAction_payload_isValid {a : JSVal} (hv : (validateAction a).isValid = true) :
    (validateActionPayload (actionTypeOf a) (payloadOf a)).isValid = true := by
  unfold validateAction at hv
  split_ifs at hv
  exact hv

/-- Embeds `validateTaskInput` with its let-bindings inlined. -/
theorem validateTaskInput_eq (p : JSVal) :
    validateTaskInput p =
      if !(validateTaskDescription (getField p "description")).isValid then
        validateTaskDescription (getField p "description")
      else if !isUndefined (getField p "priority") && !validatePriority (getField p "priority") then
        ⟨false, some "Invalid priority level"⟩
      else if !(validateDueDate (getField p "dueDate")).isValid then
        validateDueDate (getField p "dueDate")
      else if !(validateTags (getField p "tags")).isValid then
        validateTags (getField p "tags")
      else ⟨true, none⟩ := rfl

/-- A valid `ADD_TASK` action carries a string description whose trimmed form
is non-empty and at most 500 characters. -/
theorem validateAction_addTask_desc {a : JSVal} (hv : (validateAction a).isValid = true)
    (hty : actionTypeOf a = "ADD_TASK") :
    ∃ d : String, getField (payloadOf a) "description" = .str d ∧
      (jsTrim d).length ≠ 0 ∧ (jsTrim d).length ≤ 500 := by
  have hp := validateAction_payload_isValid hv
  rw [hty, validateActionPayload_addTask] at hp
  split_ifs at hp with hobj
  rw [validateTaskInput_eq] at hp
  split_ifs at hp with hd hpr hdd htg
  · exact validateTaskDescription_isValid hp
  all_goals
    have hdv : (validateTaskDescription (getField (payloadOf a) "description")).isValid = true := by
      cases hx : (validateTaskDescription (getField (payloadOf a) "description")).isValid
      · exact absurd (by rw [hx]; rfl) hd
      · rfl
    exact validateTaskDescription_isValid hdv

/-- The reachable-state description invariant claimed by the spec: no task
description is empty or whitespace-only. -/
def DescInv (s : AppState) : Prop :=
  ∀ t ∈ s.tasks, jsTrim t.description ≠ ""

/-- An action is description-safe when, if it is an `UPDATE_TASK`, any
`description` string it carries in `updates` is non-empty after trimming. -/
def descGuardOk (a : JSVal) : Prop :=
  actionTypeOf a = "UPDATE_TASK" →
    ∀ d : String,
      getField (getField (payloadOf a) "updates") "description" = .str d → jsTrim d ≠ ""

/-- A trace reaching a state holding a whitespace-only description: add a
valid task, then `UPDATE_TASK` it with `updates.description = " "` (update
payloads are not validated field-wise). -/
def c3Trace : List OAction :=
  [⟨mkAction "ADD_TASK" (.obj [("description", .str "Buy milk")]), 1, "r", 1⟩,
   ⟨mkAction "UPDATE_TASK" (mkUpdatePayload "task_1_r" (.obj [("description", .str " ")])),
    2, "r", 2⟩]

set_option maxHeartbeats 1000000 in
/-- Counterexample to C3 as stated: a state whose only task has the
whitespace-only description `" "` is reachable from the initial state. -/
theorem c3_counterexample :
    (runActions initialState c3Trace).tasks.map (fun t => t.description) = [" "] ∧
    jsTrim " " = "" := by
  decide

theorem mem_insertIdx_imp {α : Type} {y x : α} :
    ∀ {n : Nat} {l : List α}, x ∈ l.insertIdx n y → x = y ∨ x ∈ l := by
  intro n
  induction n with
  | zero =>
    intro l h
    rw [List.insertIdx_zero] at h
    exact List.mem_cons.mp h
  | succ m ih =>
    intro l h
    cases l with
    | nil =>
      rw [List.insertIdx_succ_nil] at h
      cases h
    | cons a t =>
      rw [List.insertIdx_succ_cons] at h
      rcases List.mem_cons.mp h with h | h
      · exact Or.inr (h ▸ List.mem_cons_self a t)
      · rcases ih h with h | h
        · exact Or.inl h
        · exact Or.inr (List.mem_cons_of_mem a h)

theorem descInv_step (s : AppState) (oa : OAction) (hs : DescInv s)
    (hg : descGuardOk oa.act) : DescInv (applyOAction s oa) := by
  unfold applyOAction
  by_cases hv : (validateAction oa.act).isValid = true
  · by_cases h1 : actionTypeOf oa.act = "ADD_TASK"
    · rw [appReducer_ty_addTask _ _ _ _ _ hv h1]
      intro t ht
      rcases List.mem_append.mp ht with h | h
      · exact hs t h
      · rcases validateAction_addTask_desc hv h1 with ⟨d, hd, hne, _⟩
        have he : t = { id := generateId oa.idTime oa.idRand
                        description := jsTrim (asStringD (getField (payloadOf oa.act) "description") "")
                        completed := false
                        createdAt := oa.now
                        priority := decodePriority (getField (payloadOf oa.act) "priority")
                        dueDate := decodeDueDate (getField (payloadOf oa.act) "dueDate")
                        tags := decodeTags (getField (payloadOf oa.act) "tags") } := by
          simpa [reduceAddTask] using h
        rw [he]
        show jsTrim (jsTrim (asStringD (getField (payloadOf oa.act) "description") "")) ≠ ""
        rw [hd]
        show jsTrim (jsTrim d) ≠ ""
        rw [jsTrim_idem]
        exact string_ne_empty_of_length hne
    by_cases h2 : actionTypeOf oa.act = "UPDATE_TASK"
    · rw [appReducer_ty_updateTask _ _ _ _ _ hv h2]
      simp only [reduceUpdateTask]
      split
      · exact hs
      · intro t ht
        rcases List.mem_map.mp ht with ⟨t0, ht0, he⟩
        by_cases hb : (t0.id == asStringD (getField (payloadOf oa.act) "id") "") = true
        · rw [if_pos hb] at he
          rw [← he]
          show jsTrim (asStringD (getField (getField (payloadOf oa.act) "updates") "description")
            t0.description) ≠ ""
          rcases hgf : getField (getField (payloadOf oa.act) "updates") "description" with
            _ | _ | b | m | d | xs | fs
          · exact hs t0 ht0
          · exact hs t0 ht0
          · exact hs t0 ht0
          · exact hs t0 ht0
          · exact hg h2 d hgf
          · exact hs t0 ht0
          · exact hs t0 ht0
        · rw [if_neg hb] at he
          exact he ▸ hs t0 ht0
    by_cases h3 : actionTypeOf oa.act = "DELETE_TASK"
    · rw [appReducer_ty_deleteTask _ _ _ _ _ hv h3]
      simp only [reduceDeleteTask]
      split
      · exact hs
      · intro t ht
        exact hs t (List.mem_of_mem_filter ht)
    by_cases h4 : actionTypeOf oa.act = "TOGGLE_COMPLETE"
    · rw [appReducer_ty_toggleComplete _ _ _ _ _ hv h4]
      simp only [reduceToggleComplete]
      split
      · exact hs
      · intro t ht
        rcases List.mem_map.mp ht with ⟨t0, ht0, he⟩
        by_cases hb : (t0.id == asStringD (payloadOf oa.act) "") = true
        · rw [if_pos hb] at he
          rw [← he]
          exact hs t0 ht0
        · rw [if_neg hb] at he
          exact he ▸ hs t0 ht0
    by_cases h5 : actionTypeOf oa.act = "REORDER_TASKS"
    · rw [appReducer_ty_reorderTasks _ _ _ _ _ hv h5]
      simp only [reduceReorderTasks]
      split
      · exact hs
      · split
        · intro t ht
          rename_i removed hrem
          rcases mem_insertIdx_imp ht with h | h
          · exact h ▸ hs removed (List.getElem?_mem hrem)
          · exact hs t (List.eraseIdx_subset _ _ h)
        · exact hs
    by_cases h6 : actionTypeOf oa.act = "SET_VIEW"
    · rw [appReducer_ty_setView _ _ _ _ _ hv h6]
      exact hs
    by_cases h7 : actionTypeOf oa.act = "TOGGLE_MULTI_SELECT"
    · rw [appReducer_ty_toggleMultiSelect _ _ _ _ _ hv h7]
      exact hs
    by_cases h8 : actionTypeOf oa.act = "TOGGLE_TASK_SELECTION"
    · rw [appReducer_ty_toggleTaskSelection _ _ _ _ _ hv h8]
      simp only [reduceToggleTaskSelection]
      split
      · exact hs
      · exact hs
    by_cases h9 : actionTypeOf oa.act = "CLEAR_SELECTIONS"
    · rw [appReducer_ty_clearSelections _ _ _ _ _ hv h9]
      exact hs
    by_cases h10 : actionTypeOf oa.act = "SET_REORDER_MODE"
    · rw [appReducer_ty_setReorderMode _ _ _ _ _ hv h10]
      exact hs
    by_cases h11 : actionTypeOf oa.act = "SET_EDITING_TASK"
    · rw [appReducer_ty_setEditingTask _ _ _ _ _ hv h11]
      simp only [reduceSetEditingTask]
      split
      · exact hs
      · split
        · exact hs
        · exact hs
    by_cases h12 : actionTypeOf oa.act = "SET_THEME"
    · rw [appReducer_ty_setTheme _ _ _ _ _ hv h12]
      exact hs
    by_cases h13 : actionTypeOf oa.act = "BATCH_DELETE"
    · rw [appReducer_ty_batchDelete _ _ _ _ _ hv h13]
      simp only [reduceBatchDelete]
      split
      · exact hs
      · intro t ht
        exact hs t (List.mem_of_mem_filter ht)
    by_cases h14 : actionTypeOf oa.act = "BATCH_COMPLETE"
    · rw [appReducer_ty_batchComplete _ _ _ _ _ hv h14]
      simp only [reduceBatchComplete]
      split
      · exact hs
      · intro t ht
        rcases List.mem_map.mp ht with ⟨t0, ht0, he⟩
        by_cases hb : ((decodeIdList (payloadOf oa.act)).filter
            (fun id => (s.tasks.map (fun task => task.id)).contains id)).contains t0.id = true
        · rw [if_pos hb] at he
          rw [← he]
          exact hs t0 ht0
        · rw [if_neg hb] at he
          exact he ▸ hs t0 ht0
    by_cases h15 : actionTypeOf oa.act = "SET_TAG_FILTER"
    · rw [appReducer_ty_setTagFilter _ _ _ _ _ hv h15]
      exact hs
    rw [appReducer_eq_branch _ _ _ _ _ hv]
    rw [if_neg h1, if_neg h2, if_neg h3, if_neg h4, if_neg h5, if_neg h6, if_neg h7,
        if_neg h8, if_neg h9, if_neg h10, if_neg h11, if_neg h12, if_neg h13, if_neg h14,
        if_neg h15]
    exact hs
  · rw [appReducer_invalid _ _ _ _ _ (Bool.not_eq_true _ ▸ Bool.of_not_eq_true hv)]
    exact hs

theorem descInv_runActions (l : List OAction) :
    ∀ s : AppState, DescInv s → (∀ oa ∈ l, descGuardOk oa.act) → DescInv (runActions s l) := by
  induction l with
  | nil => exact fun s hs _ => hs
  | cons oa rest ih =>
    intro s hs hg
    exact ih (applyOAction s oa)
      (descInv_step s oa hs (hg oa (List.mem_cons_self oa rest)))
      (fun oa2 h2 => hg oa2 (List.mem_cons_of_mem oa h2))

/-- C3 (amended): in every state reachable from the initial state by a
dispatch sequence in which every `UPDATE_TASK` whose `updates` carry a
`description` string carries one that is non-empty after trimming, every task
description is non-empty and not whitespace-only. (An unguarded `UPDATE_TASK`
can store a whitespace-only description; see the counterexample.) -/
theorem c3_description_invariant_guarded (l : List OAction)
    (h : ∀ oa ∈ l, descGuardOk oa.act) :
    DescInv (runActions initialState l) :=
  descInv_runActions l initialState (fun t ht => absurd ht (List.not_mem_nil t)) h

/-- Witness for C3 (amended): a one-action guarded trace. -/
theorem c3_witness :
    DescInv (runActions initialState
      [⟨mkAction "ADD_TASK" (.obj [("description", .str "Buy milk")]), 1, "r", 1⟩]) := by
  apply c3_description_invariant_guarded
  intro oa hoa
  rcases List.mem_singleton.mp hoa with rfl
  intro hupd
  exact absurd hupd (by decide)

/-! ## C5 -/

set_option maxHeartbeats 1000000 in
/-- Counterexample to C5 as stated: `generateId` concatenates the clock value
and a random suffix without checking existing ids, so when both oracle inputs
repeat (same millisecond, same random draw) the appended task's id equals an
existing task's id. -/
theorem c5_counterexample :
    (runActions initialState
      [⟨mkAction "ADD_TASK" (.obj [("description", .str "Buy milk")]), 1, "r", 1⟩,
       ⟨mkAction "ADD_TASK" (.obj [("description", .str "Other thing")]), 1, "r", 2⟩]).tasks.map
        (fun t => t.id) = ["task_1_r", "task_1_r"] := by
  decide

theorem string_length_ne_zero_of_ne_empty {s : String} (h : s ≠ "") : s.length ≠ 0 := by
  intro hl
  apply h
  cases s with
  | mk data =>
    have hd : data = [] := List.length_eq_zero.mp hl
    rw [hd]

/-- C5 (amended): a validated `ADD_TASK` appends exactly one task — with
`completed = false`, `createdAt` the dispatch clock value, and the payload
description trimmed — leaving every pre-existing task unchanged; and
whenever the freshly generated id does not already occur among `s.tasks`
(which `generateId` does not check), the appended id is distinct from every
existing id. -/
theorem c5_add_task_appends_fresh_task (s : AppState) (p : JSVal) (idTime : Int)
    (idRand : String) (now : Int) (d : String)
    (hv : (validateAction (mkAction "ADD_TASK" p)).isValid = true)
    (hd : getField p "description" = .str d)
    (hfresh : generateId idTime idRand ∉ s.tasks.map (fun t => t.id)) :
    appReducer s (mkAction "ADD_TASK" p) idTime idRand now =
      { s with tasks := s.tasks ++ [{ id := generateId idTime idRand
                                      description := jsTrim d
                                      completed := false
                                      createdAt := now
                                      priority := decodePriority (getField p "priority")
                                      dueDate := decodeDueDate (getField p "dueDate")
                                      tags := decodeTags (getField p "tags") }] } ∧
    (appReducer s (mkAction "ADD_TASK" p) idTime idRand now).tasks.length =
      s.tasks.length + 1 ∧
    jsTrim d ≠ "" ∧
    (∀ t ∈ s.tasks, t.id ≠ generateId idTime idRand) := by
  have he : appReducer s (mkAction "ADD_TASK" p) idTime idRand now =
      { s with tasks := s.tasks ++ [{ id := generateId idTime idRand
                                      description := jsTrim d
                                      completed := false
                                      createdAt := now
                                      priority := decodePriority (getField p "priority")
                                      dueDate := decodeDueDate (getField p "dueDate")
                                      tags := decodeTags (getField p "tags") }] } := by
    rw [appReducer_addTask _ _ _ _ _ hv]
    simp [reduceAddTask, payloadOf_mkAction, hd, asStringD]
  refine ⟨he, ?_, ?_, ?_⟩
  · rw [he]
    simp
  · rcases validateAction_addTask_desc hv (actionTypeOf_mkAction _ _) with ⟨d2, hd2, hne, _⟩
    rw [payloadOf_mkAction] at hd2
    rw [hd] at hd2
    cases hd2
    exact string_ne_empty_of_length hne
  · intro t ht heq
    exact hfresh (List.mem_map.mpr ⟨t, ht, heq⟩)

set_option maxHeartbeats 1000000 in
/-- Witness for C5 (amended): adding a task to the empty initial state yields
one task. -/
theorem c5_witness :
    (appReducer initialState (mkAction "ADD_TASK" (.obj [("description", .str "Buy milk")]))
      1 "r" 1).tasks.length = initialState.tasks.length + 1 :=
  (c5_add_task_appends_fresh_task initialState (.obj [("description", .str "Buy milk")])
    1 "r" 1 "Buy milk" (by decide) rfl (by decide)).2.1

/-! ## C10 -/

/-- A typed `Partial<Task>`: the `updates` objects expressible through the
typed `Action` interface of `src/types/State.ts`. -/
structure TaskUpdates where
  id : Option String := none
  description : Option String := none
  completed : Option Bool := none
  createdAt : Option Int := none
  priority : Option Priority := none
  dueDate : Option (Option ℚ) := none
  tags : Option (List String) := none

/-- The wire name of a priority level. -/
def priorityName (p : Priority) : String :=
  match p with
  | .low => "low"
  | .medium => "medium"
  | .high => "high"
  | .critical => "critical"

/-- The runtime object of a typed `Partial<Task>`. Absent fields are encoded
as `undefined`-valued keys, which the embedded shallow merge treats exactly
like missing keys (TypeScript optional fields). -/
def encodeUpdates (u : TaskUpdates) : JSVal :=
  .obj [("id", match u.id with | some v => .str v | none => .undefined),
        ("description", match u.description with | some v => .str v | none => .undefined),
        ("completed", match u.completed with | some b => .bool b | none => .undefined),
        ("createdAt", match u.createdAt with | some n => .num (.fin (n : ℚ)) | none => .undefined),
        ("priority", match u.priority with | some pr => .str (priorityName pr) | none => .undefined),
        ("dueDate", match u.dueDate with
                    | some (some q) => .num (.fin q)
                    | some none => .null
                    | none => .undefined),
        ("tags", match u.tags with | some ts => .arr (ts.map (fun t => .str t)) | none => .undefined)]

/-- The typed shallow merge: every present field of `updates` overwrites the
corresponding task field, absent fields keep the old value. -/
def applyUpdates (t : Task) (u : TaskUpdates) : Task :=
  { id := u.id.getD t.id
    description := u.description.getD t.description
    completed := u.completed.getD t.completed
    createdAt := u.createdAt.getD t.createdAt
    priority := u.priority.getD t.priority
    dueDate := match u.dueDate with | some d => d | none => t.dueDate
    tags := u.tags.getD t.tags }

theorem map_str_asStringD (l : List String) :
    (l.map (fun x => JSVal.str x)).map (fun x => asStringD x "") = l := by
  rw [List.map_map]
  have h : ((fun x => asStringD x "") ∘ fun x => JSVal.str x) = id := funext fun x => rfl
  rw [h, List.map_id]

/-- The embedded JS merge of an encoded typed update agrees with the typed
shallow merge. -/
theorem mergeTask_encodeUpdates (t : Task) (u : TaskUpdates) :
    mergeTask t (encodeUpdates u) = applyUpdates t u := by
  have hf1 : getField (encodeUpdates u) "id" =
      (match u.id with | some v => .str v | none => .undefined) := rfl
  have hf2 : getField (encodeUpdates u) "description" =
      (match u.description with | some v => .str v | none => .undefined) := rfl
  have hf3 : getField (encodeUpdates u) "completed" =
      (match u.completed with | some b => .bool b | none => .undefined) := rfl
  have hf4 : getField (encodeUpdates u) "createdAt" =
      (match u.createdAt with | some n => .num (.fin (n : ℚ)) | none => .undefined) := rfl
  have hf5 : getField (encodeUpdates u) "priority" =
      (match u.priority with | some pr => .str (priorityName pr) | none => .undefined) := rfl
  have hf6 : getField (encodeUpdates u) "dueDate" =
      (match u.dueDate with
       | some (some q) => .num (.fin q)
       | some none => .null
       | none => .undefined) := rfl
  have hf7 : getField (encodeUpdates u) "tags" =
      (match u.tags with | some ts => .arr (ts.map (fun t => .str t)) | none => .undefined) := rfl
  unfold mergeTask applyUpdates
  rw [hf1, hf2, hf3, hf4, hf5, hf6, hf7, Task.mk.injEq]
  refine ⟨?_, ?_, ?_, ?_, ?_, ?_, ?_⟩
  · cases u.id <;> rfl
  · cases u.description <;> rfl
  · cases u.completed <;> rfl
  · cases u.createdAt with
    | none => rfl
    | some n => simp [Rat.den_intCast, Rat.num_intCast]
  · cases u.priority with
    | none => rfl
    | some pr => cases pr <;> rfl
  · rcases u.dueDate with _ | _ | q <;> rfl
  · cases u.tags with
    | none => rfl
    | some ts => exact map_str_asStringD ts

/-- Embeds `validateActionPayload` at `UPDATE_TASK`, with its let-binding inlined. -/
theorem validateActionPayload_updateTask (p : JSVal) :
    validateActionPayload "UPDATE_TASK" p =
      if !(isTruthy p && isObjectType p) then
        ⟨false, some "UPDATE_TASK requires a payload object"⟩
      else if !(validateTaskId (getField p "id")).isValid then validateTaskId (getField p "id")
      else if !(isTruthy (getField p "updates") && isObjectType (getField p "updates")) then
        ⟨false, some "UPDATE_TASK requires updates object"⟩
      else ⟨true, none⟩ := rfl

/-- C10: for a validly-shaped `UPDATE_TASK` whose id matches a task, the
action passes validation for any typed updates object (its contents are never
validated field-wise — a whitespace-only description, or overwrites of `id`,
`createdAt` and `completed`, are accepted), and every matching task in the
result is the shallow merge of the old task with the updates, all other tasks
and the whole `ui` and `theme` slices being unchanged. -/
theorem c10_update_task_shallow_merge (s : AppState) (id : String) (u : TaskUpdates)
    (idTime : Int) (idRand : String) (now : Int)
    (hid : jsTrim id ≠ "")
    (hex : id ∈ s.tasks.map (fun t => t.id)) :
    (validateAction (mkAction "UPDATE_TASK" (mkUpdatePayload id (encodeUpdates u)))).isValid =
      true ∧
    appReducer s (mkAction "UPDATE_TASK" (mkUpdatePayload id (encodeUpdates u)))
        idTime idRand now =
      { s with tasks := s.tasks.map (fun t => if t.id == id then applyUpdates t u else t) } := by
  have hpl : payloadOf (mkAction "UPDATE_TASK" (mkUpdatePayload id (encodeUpdates u))) =
      mkUpdatePayload id (encodeUpdates u) := rfl
  have hgid : getField (mkUpdatePayload id (encodeUpdates u)) "id" = .str id := rfl
  have hgupd : getField (mkUpdatePayload id (encodeUpdates u)) "updates" = encodeUpdates u := rfl
  have hvid : (validateTaskId (.str id)).isValid = true := by
    show (if (jsTrim id).length = 0 then
        (⟨false, some "Task ID cannot be empty"⟩ : ValidationResult)
      else ⟨true, none⟩).isValid = true
    rw [if_neg (string_length_ne_zero_of_ne_empty hid)]
  have hv : (validateAction (mkAction "UPDATE_TASK"
      (mkUpdatePayload id (encodeUpdates u)))).isValid = true := by
    rw [validateAction_mkAction _ _ (by decide), validateActionPayload_updateTask,
        hgid, hgupd, hvid]
    have ht1 : (isTruthy (mkUpdatePayload id (encodeUpdates u)) &&
        isObjectType (mkUpdatePayload id (encodeUpdates u))) = true := rfl
    have ht2 : (isTruthy (encodeUpdates u) && isObjectType (encodeUpdates u)) = true := rfl
    rw [ht1, ht2]
    rfl
  refine ⟨hv, ?_⟩
  rw [appReducer_updateTask _ _ _ _ _ hv]
  unfold reduceUpdateTask
  rw [hgid]
  have hid2 : asStringD (.str id) "" = id := rfl
  rw [hid2, if_neg]
  · show AppState.mk _ _ _ = _
    rw [AppState.mk.injEq]
    refine ⟨?_, rfl, rfl⟩
    apply List.map_congr_left
    intro t _
    rw [hgupd, mergeTask_encodeUpdates]
  · rw [tasks_any_eq_true hex]
    simp

/-- Witness for C10: an update overwriting `completed` and storing a
whitespace-only description is applied verbatim to the matching task. -/
theorem c10_witness :
    appReducer
      { tasks := [{ id := "a", description := "walk", completed := false, createdAt := 0,
                    priority := .medium, dueDate := none, tags := [] }]
        ui := initialState.ui, theme := defaultTheme }
      (mkAction "UPDATE_TASK" (mkUpdatePayload "a"
        (encodeUpdates { description := some " ", completed := some true })))
      0 "r" 0 =
      { tasks := ([{ id := "a", description := "walk", completed := false, createdAt := 0,
                     priority := .medium, dueDate := none, tags := [] }] : List Task).map
          (fun t => if t.id == "a" then
            applyUpdates t { description := some " ", completed := some true } else t)
        ui := initialState.ui, theme := defaultTheme } :=
  (c10_update_task_shallow_merge
    { tasks := [{ id := "a", description := "walk", completed := false, createdAt := 0,
                  priority := .medium, dueDate := none, tags := [] }]
      ui := initialState.ui, theme := defaultTheme }
    "a" { description := some " ", completed := some true } 0 "r" 0
    (by decide) (by decide)).2

/-! ## C4 -/

/-- Embeds `validateTaskId` on a string succeeds exactly when the trim is non-empty. -/
theorem validateTaskId_str_isValid {a : String} (h : jsTrim a ≠ "") :
    (validateTaskId (.str a)).isValid = true := by
  show (if (jsTrim a).length = 0 then
      (⟨false, some "Task ID cannot be empty"⟩ : ValidationResult)
    else ⟨true, none⟩).isValid = true
  rw [if_neg (string_length_ne_zero_of_ne_empty h)]

/-- Embeds `validateIdList` with its let-binding inlined. -/
theorem validateIdList_cons (x : JSVal) (rest : List JSVal) :
    validateIdList (x :: rest) =
      if !(validateTaskId x).isValid then validateTaskId x else validateIdList rest := rfl

/-- A batch payload of valid id strings passes the per-element id check. -/
theorem validateIdList_strs (P : List String) (hP : ∀ id ∈ P, jsTrim id ≠ "") :
    (validateIdList (P.map (fun x => .str x))).isValid = true := by
  induction P with
  | nil => rfl
  | cons a t ih =>
    rw [List.map_cons, validateIdList_cons,
        validateTaskId_str_isValid (hP a (List.mem_cons_self a t))]
    simp only [Bool.not_true, Bool.false_eq_true, if_false]
    exact ih (fun id h => hP id (List.mem_cons_of_mem a h))

/-- Embeds `reduceBatchDelete` with its let-bindings inlined. -/
theorem reduceBatchDelete_eq (state : AppState) (payload : JSVal) :
    reduceBatchDelete state payload =
      if ((decodeIdList payload).filter
          (fun id => (state.tasks.map (fun task => task.id)).contains id)).length = 0 then state
      else
        { state with
          tasks := state.tasks.filter (fun task =>
            !(((decodeIdList payload).filter
              (fun id => (state.tasks.map (fun task => task.id)).contains id)).contains task.id))
          ui := { state.ui with selectedTaskIds := [], multiSelectMode := false } } := rfl

/-- Embeds `contains` on strings is decidable membership. -/
theorem contains_eq_decide_mem (l : List String) (x : String) :
    l.contains x = decide (x ∈ l) := by
  simp [List.contains]

theorem length_filter_not_add {α : Type} (p : α → Bool) (l : List α) :
    (l.filter (fun x => !(p x))).length + (l.filter p).length = l.length := by
  induction l with
  | nil => rfl
  | cons a t ih =>
    rw [List.filter_cons, List.filter_cons]
    by_cases h : p a = true
    · simp only [h, Bool.not_true, Bool.false_eq_true, if_false, if_true, List.length_cons]
      omega
    · rw [Bool.not_eq_true] at h
      simp only [h, Bool.not_false, if_true, Bool.false_eq_true, if_false, List.length_cons]
      omega

/-- C4: for a `BATCH_DELETE` whose payload is an array of valid id strings
`P`: if no id of `P` matches a task, the state is returned unchanged; else
exactly the tasks whose id is in `P` are removed (survivors keep their order),
`selectedTaskIds` is cleared and `multiSelectMode` turned off with every other
slice unchanged, and — when task ids are duplicate-free, as the data-model
invariant requires — the final task count is the initial count minus the size
of the intersection of `P` with the existing ids. -/
theorem c4_batch_delete (s : AppState) (P : List String) (idTime : Int) (idRand : String)
    (now : Int) (hP : ∀ id ∈ P, jsTrim id ≠ "") :
    ((∀ id ∈ P, id ∉ s.tasks.map (fun t => t.id)) →
      appReducer s (mkAction "BATCH_DELETE" (.arr (P.map (fun x => .str x)))) idTime idRand now
        = s) ∧
    ((∃ id ∈ P, id ∈ s.tasks.map (fun t => t.id)) →
      appReducer s (mkAction "BATCH_DELETE" (.arr (P.map (fun x => .str x)))) idTime idRand now =
        { s with
          tasks := s.tasks.filter (fun t => !(P.contains t.id))
          ui := { s.ui with selectedTaskIds := [], multiSelectMode := false } } ∧
      ((s.tasks.map (fun t => t.id)).Nodup →
        (appReducer s (mkAction "BATCH_DELETE" (.arr (P.map (fun x => .str x))))
            idTime idRand now).tasks.length =
          s.tasks.length - ((s.tasks.map (fun t => t.id)).toFinset ∩ P.toFinset).card)) := by
  have hv : (validateAction (mkAction "BATCH_DELETE"
      (.arr (P.map (fun x => .str x))))).isValid = true := by
    rw [validateAction_mkAction _ _ (by decide)]
    exact validateIdList_strs P hP
  have hdec : decodeIdList (.arr (P.map (fun x => .str x))) = P := map_str_asStringD P
  have hred := appReducer_batchDelete s (.arr (P.map (fun x => .str x))) idTime idRand now hv
  constructor
  · intro hnone
    rw [hred, reduceBatchDelete_eq, hdec]
    have hnil : P.filter (fun id => (s.tasks.map (fun t => t.id)).contains id) = [] :=
      List.filter_eq_nil_iff.mpr (fun a ha hc =>
        hnone a ha (of_decide_eq_true ((contains_eq_decide_mem _ _) ▸ hc)))
    rw [hnil]
    rfl
  · intro ⟨id0, hid0, hex0⟩
    have hmemf : id0 ∈ P.filter (fun id => (s.tasks.map (fun t => t.id)).contains id) :=
      List.mem_filter.mpr ⟨hid0, by rw [contains_eq_decide_mem]; exact decide_eq_true hex0⟩
    have hne : ¬(P.filter (fun id => (s.tasks.map (fun t => t.id)).contains id)).length = 0 := by
      intro h0
      rw [List.length_eq_zero] at h0
      rw [h0] at hmemf
      exact absurd hmemf (List.not_mem_nil id0)
    have hfc : s.tasks.filter (fun task =>
        !((P.filter (fun id => (s.tasks.map (fun t => t.id)).contains id)).contains task.id)) =
        s.tasks.filter (fun t => !(P.contains t.id)) := by
      apply List.filter_congr
      intro t ht
      have hmem : t.id ∈ s.tasks.map (fun task => task.id) := List.mem_map.mpr ⟨t, ht, rfl⟩
      have hiff : t.id ∈ P.filter (fun id => (s.tasks.map (fun t => t.id)).contains id) ↔
          t.id ∈ P :=
        ⟨fun h => (List.mem_filter.mp h).1,
         fun h => List.mem_filter.mpr
           ⟨h, by rw [contains_eq_decide_mem]; exact decide_eq_true hmem⟩⟩
      have hc : (P.filter (fun id => (s.tasks.map (fun t => t.id)).contains id)).contains t.id =
          P.contains t.id := by
        rw [contains_eq_decide_mem, contains_eq_decide_mem, decide_eq_decide]
        exact hiff
      rw [hc]
    have hmain : appReducer s (mkAction "BATCH_DELETE" (.arr (P.map (fun x => .str x))))
        idTime idRand now =
        { s with
          tasks := s.tasks.filter (fun t => !(P.contains t.id))
          ui := { s.ui with selectedTaskIds := [], multiSelectMode := false } } := by
      rw [hred, reduceBatchDelete_eq, hdec, if_neg hne, AppState.mk.injEq]
      exact ⟨hfc, rfl, rfl⟩
    refine ⟨hmain, fun hnd => ?_⟩
    rw [hmain]
    show (s.tasks.filter (fun t => !(P.contains t.id))).length =
      s.tasks.length - ((s.tasks.map (fun t => t.id)).toFinset ∩ P.toFinset).card
    have hadd := length_filter_not_add (fun t => P.contains t.id) s.tasks
    have hcard : (s.tasks.filter (fun t => P.contains t.id)).length =
        ((s.tasks.map (fun t => t.id)).toFinset ∩ P.toFinset).card := by
      have hmf : ((s.tasks.map (fun t => t.id)).filter (fun id => P.contains id)).length =
          (s.tasks.filter (fun t => P.contains t.id)).length := by
        rw [List.filter_map]
        rw [List.length_map]
        rfl
      rw [← hmf]
      rw [← List.toFinset_card_of_nodup (List.Nodup.filter _ hnd)]
      congr 1
      apply Finset.ext
      intro x
      simp [List.mem_filter, contains_eq_decide_mem]
    have hle : (s.tasks.filter (fun t => P.contains t.id)).length ≤ s.tasks.length :=
      List.length_filter_le _ _
    rw [hcard] at hadd
    omega

set_option maxHeartbeats 1000000 in
/-- Witness for C4: deleting ids `["a", "x"]` from tasks `a`, `b` (where `x`
matches nothing) removes exactly task `a`. -/
theorem c4_witness :
    appReducer
      { tasks := [{ id := "a", description := "walk", completed := false, createdAt := 0,
                    priority := .medium, dueDate := none, tags := [] },
                  { id := "b", description := "shop", completed := false, createdAt := 0,
                    priority := .medium, dueDate := none, tags := [] }]
        ui := initialState.ui, theme := defaultTheme }
      (mkAction "BATCH_DELETE" (.arr ((["a", "x"] : List String).map (fun x => .str x))))
      0 "r" 0 =
      { tasks := ([{ id := "a", description := "walk", completed := false, createdAt := 0,
                     priority := .medium, dueDate := none, tags := [] },
                   { id := "b", description := "shop", completed := false, createdAt := 0,
                     priority := .medium, dueDate := none, tags := [] }] : List Task).filter
          (fun t => !((["a", "x"] : List String).contains t.id))
        ui := { initialState.ui with selectedTaskIds := [], multiSelectMode := false }
        theme := defaultTheme } :=
  ((c4_batch_delete
    { tasks := [{ id := "a", description := "walk", completed := false, createdAt := 0,
                  priority := .medium, dueDate := none, tags := [] },
                { id := "b", description := "shop", completed := false, createdAt := 0,
                  priority := .medium, dueDate := none, tags := [] }]
      ui := initialState.ui, theme := defaultTheme }
    ["a", "x"] 0 "r" 0 (by decide)).2 ⟨"a", by decide, by decide⟩).1

/-! ## C6 -/

/-- A well-formed reorder index for a list of the given length: a number that
is integral and within `[0, len)`. -/
def goodIdxB (v : JSVal) (len : Nat) : Bool :=
  match v with
  | .num (.fin q) => q.den == 1 && (decide (0 ≤ q.num) && decide (q.num < (len : Int)))
  | _ => false

/-- Embeds `validateReorderIndices` on two numbers, written without the match. -/
theorem validateReorderIndices_num (nf nt : JNum) (len : Int) :
    validateReorderIndices (.num nf) (.num nt) len =
      if !(jnumIsInteger nf && jnumIsInteger nt) then ⟨false, some "Indices must be integers"⟩
      else if jnumToInt nf < 0 ∨ jnumToInt nf ≥ len then ⟨false, some "From index out of bounds"⟩
      else if jnumToInt nt < 0 ∨ jnumToInt nt ≥ len then ⟨false, some "To index out of bounds"⟩
      else ⟨true, none⟩ := rfl

/-- Embeds `validateReorderIndices` rejects when either argument is not a number. -/
theorem validateReorderIndices_not_num (jf jt : JSVal) (len : Int)
    (h : ¬(isNumberType jf = true ∧ isNumberType jt = true)) :
    validateReorderIndices jf jt len = ⟨false, some "Indices must be numbers"⟩ := by
  cases jf <;> cases jt <;> first | rfl | exact absurd ⟨rfl, rfl⟩ h

/-- Embeds `reduceReorderTasks` with its let-bindings inlined. -/
theorem reduceReorderTasks_eq (state : AppState) (payload : JSVal) :
    reduceReorderTasks state payload =
      if !(validateReorderIndices (getField payload "fromIndex") (getField payload "toIndex")
          (state.tasks.length : Int)).isValid then state
      else
        match state.tasks[decodeIndex (getField payload "fromIndex")]? with
        | some removed =>
          { state with
            tasks := (state.tasks.eraseIdx
              (decodeIndex (getField payload "fromIndex"))).insertIdx
                (decodeIndex (getField payload "toIndex")) removed }
        | none => state := rfl

/-- A list is a permutation of its element at `n` consed onto its
`n`-th-element removal. -/
theorem perm_cons_eraseIdx {α : Type} :
    ∀ (l : List α) (n : Nat) (h : n < l.length),
      List.Perm l (l.get ⟨n, h⟩ :: l.eraseIdx n) := by
  intro l
  induction l with
  | nil => intro n h; cases h
  | cons a tl ih =>
    intro n h
    cases n with
    | zero => exact List.Perm.refl _
    | succ m =>
      have hm : m < tl.length := Nat.lt_of_succ_lt_succ h
      have h1 : List.Perm (a :: tl) (a :: (tl.get ⟨m, hm⟩ :: tl.eraseIdx m)) :=
        List.Perm.cons a (ih m hm)
      exact h1.trans (List.Perm.swap _ _ _)

/-- C6: for in-range integer indices, `REORDER_TASKS` removes the element at
`fromIndex` and reinserts it at `toIndex` of the shortened list, producing a
permutation of the original tasks (the same unordered collection) with `ui`
and `theme` untouched; for any pair of indices that is not two in-range
integers, the state is returned unchanged. -/
theorem c6_reorder_tasks (s : AppState) (idTime : Int) (idRand : String) (now : Int) :
    (∀ (f t : Nat) (hf : f < s.tasks.length), t < s.tasks.length →
      (appReducer s (mkAction "REORDER_TASKS"
          (mkReorderPayload (.num (.fin (f : ℚ))) (.num (.fin (t : ℚ)))))
          idTime idRand now).tasks =
        (s.tasks.eraseIdx f).insertIdx t (s.tasks.get ⟨f, hf⟩) ∧
      List.Perm (appReducer s (mkAction "REORDER_TASKS"
          (mkReorderPayload (.num (.fin (f : ℚ))) (.num (.fin (t : ℚ)))))
          idTime idRand now).tasks s.tasks ∧
      (appReducer s (mkAction "REORDER_TASKS"
          (mkReorderPayload (.num (.fin (f : ℚ))) (.num (.fin (t : ℚ)))))
          idTime idRand now).ui = s.ui ∧
      (appReducer s (mkAction "REORDER_TASKS"
          (mkReorderPayload (.num (.fin (f : ℚ))) (.num (.fin (t : ℚ)))))
          idTime idRand now).theme = s.theme) ∧
    (∀ jf jt : JSVal,
      ¬(goodIdxB jf s.tasks.length = true ∧ goodIdxB jt s.tasks.length = true) →
      appReducer s (mkAction "REORDER_TASKS" (mkReorderPayload jf jt)) idTime idRand now = s) := by
  have hv : ∀ jf jt : JSVal,
      (validateAction (mkAction "REORDER_TASKS" (mkReorderPayload jf jt))).isValid = true := by
    intro jf jt
    rw [validateAction_mkAction _ _ (by decide)]
    rfl
  constructor
  · intro f t hf ht
    have hgf : getField (mkReorderPayload (.num (.fin (f : ℚ))) (.num (.fin (t : ℚ))))
        "fromIndex" = .num (.fin (f : ℚ)) := rfl
    have hgt : getField (mkReorderPayload (.num (.fin (f : ℚ))) (.num (.fin (t : ℚ))))
        "toIndex" = .num (.fin (t : ℚ)) := rfl
    have hvr : (validateReorderIndices (.num (.fin (f : ℚ))) (.num (.fin (t : ℚ)))
        (s.tasks.length : Int)).isValid = true := by
      have h1 : (jnumIsInteger (.fin (f : ℚ)) && jnumIsInteger (.fin (t : ℚ))) = true := rfl
      have hbf : ¬(jnumToInt (.fin (f : ℚ)) < 0 ∨
          jnumToInt (.fin (f : ℚ)) ≥ (s.tasks.length : Int)) := by
        show ¬((f : Int) < 0 ∨ (f : Int) ≥ (s.tasks.length : Int))
        omega
      have hbt : ¬(jnumToInt (.fin (t : ℚ)) < 0 ∨
          jnumToInt (.fin (t : ℚ)) ≥ (s.tasks.length : Int)) := by
        show ¬((t : Int) < 0 ∨ (t : Int) ≥ (s.tasks.length : Int))
        omega
      rw [validateReorderIndices_num, h1]
      simp only [Bool.not_true, Bool.false_eq_true, if_false]
      rw [if_neg hbf, if_neg hbt]
    have hdf : decodeIndex (.num (.fin (f : ℚ))) = f := rfl
    have hdt : decodeIndex (.num (.fin (t : ℚ))) = t := rfl
    have hget : s.tasks[f]? = some (s.tasks.get ⟨f, hf⟩) := by
      rw [List.getElem?_eq_getElem hf]
      rfl
    have hred : appReducer s (mkAction "REORDER_TASKS"
        (mkReorderPayload (.num (.fin (f : ℚ))) (.num (.fin (t : ℚ))))) idTime idRand now =
        { s with tasks := (s.tasks.eraseIdx f).insertIdx t (s.tasks.get ⟨f, hf⟩) } := by
      rw [appReducer_reorderTasks _ _ _ _ _ (hv _ _), reduceReorderTasks_eq, hgf, hgt, hvr]
      simp only [Bool.not_true, Bool.false_eq_true, if_false]
      rw [hdf, hdt, hget]
    have hperm : List.Perm ((s.tasks.eraseIdx f).insertIdx t (s.tasks.get ⟨f, hf⟩)) s.tasks := by
      have hlen : t ≤ (s.tasks.eraseIdx f).length := by
        rw [List.length_eraseIdx]
        simp only [hf, if_true]
        omega
      exact (List.perm_insertIdx _ _ hlen).trans (perm_cons_eraseIdx s.tasks f hf).symm
    rw [hred]
    exact ⟨rfl, hperm, rfl, rfl⟩
  · intro jf jt hbad
    rw [appReducer_reorderTasks _ _ _ _ _ (hv _ _), reduceReorderTasks_eq]
    have hgf : getField (mkReorderPayload jf jt) "fromIndex" = jf := rfl
    have hgt : getField (mkReorderPayload jf jt) "toIndex" = jt := rfl
    rw [hgf, hgt]
    have hinv : (validateReorderIndices jf jt (s.tasks.length : Int)).isValid = false := by
      by_cases hnum : isNumberType jf = true ∧ isNumberType jt = true
      · obtain ⟨hnf, hnt⟩ := hnum
        cases jf with
        | num nf =>
          cases jt with
          | num nt =>
            rw [validateReorderIndices_num]
            by_cases hint : (jnumIsInteger nf && jnumIsInteger nt) = true
            · rw [hint]
              cases nf with
              | fin qf =>
                cases nt with
                | fin qt =>
                  rw [Bool.and_eq_true] at hint
                  have hdf : qf.den = 1 := by simpa [jnumIsInteger] using hint.1
                  have hdt : qt.den = 1 := by simpa [jnumIsInteger] using hint.2
                  by_cases hbf : jnumToInt (.fin qf) < 0 ∨
                      jnumToInt (.fin qf) ≥ (s.tasks.length : Int)
                  · simp only [Bool.not_true, Bool.false_eq_true, if_false, if_pos hbf]
                  · by_cases hbt : jnumToInt (.fin qt) < 0 ∨
                        jnumToInt (.fin qt) ≥ (s.tasks.length : Int)
                    · simp only [Bool.not_true, Bool.false_eq_true, if_false,
                        if_neg hbf, if_pos hbt]
                    · exfalso
                      simp only [jnumToInt] at hbf hbt
                      apply hbad
                      constructor
                      · show (qf.den == 1 && (decide (0 ≤ qf.num) &&
                          decide (qf.num < (s.tasks.length : Int)))) = true
                        simp only [hdf, beq_self_eq_true, Bool.true_and, Bool.and_eq_true,
                          decide_eq_true_eq]
                        omega
                      · show (qt.den == 1 && (decide (0 ≤ qt.num) &&
                          decide (qt.num < (s.tasks.length : Int)))) = true
                        simp only [hdt, beq_self_eq_true, Bool.true_and, Bool.and_eq_true,
                          decide_eq_true_eq]
                        omega
                | nan => simp [jnumIsInteger] at hint
                | posInf => simp [jnumIsInteger] at hint
                | negInf => simp [jnumIsInteger] at hint
              | nan => simp [jnumIsInteger] at hint
              | posInf => simp [jnumIsInteger] at hint
              | negInf => simp [jnumIsInteger] at hint
            · rw [Bool.not_eq_true] at hint
              rw [hint]
              rfl
          | null => cases hnt
          | undefined => cases hnt
          | bool b => cases hnt
          | str st => cases hnt
          | arr xs => cases hnt
          | obj fs => cases hnt
        | null => cases hnf
        | undefined => cases hnf
        | bool b => cases hnf
        | str st => cases hnf
        | arr xs => cases hnf
        | obj fs => cases hnf
      · rw [validateReorderIndices_not_num jf jt _ hnum]
    rw [hinv]
    rfl

/-- Witness for C6: swapping the two tasks of a two-task state, and a no-op
on a non-integer index. -/
theorem c6_witness :
    ((appReducer
      { tasks := [{ id := "a", description := "walk", completed := false, createdAt := 0,
                    priority := .medium, dueDate := none, tags := [] },
                  { id := "b", description := "shop", completed := false, createdAt := 0,
                    priority := .medium, dueDate := none, tags := [] }]
        ui := initialState.ui, theme := defaultTheme }
      (mkAction "REORDER_TASKS"
        (mkReorderPayload (.num (.fin ((0 : Nat) : ℚ))) (.num (.fin ((1 : Nat) : ℚ)))))
      0 "r" 0).tasks.length = 2) ∧
    appReducer initialState
      (mkAction "REORDER_TASKS" (mkReorderPayload (.num (.fin (Rat.mk' 1 2))) (.num .nan)))
      0 "r" 0 = initialState := by
  constructor
  · have h := ((c6_reorder_tasks
      { tasks := [{ id := "a", description := "walk", completed := false, createdAt := 0,
                    priority := .medium, dueDate := none, tags := [] },
                  { id := "b", description := "shop", completed := false, createdAt := 0,
                    priority := .medium, dueDate := none, tags := [] }]
        ui := initialState.ui, theme := defaultTheme } 0 "r" 0).1 0 1 (by decide) (by decide)).2.1
    exact h.length_eq
  · exact (c6_reorder_tasks initialState 0 "r" 0).2 (.num (.fin (Rat.mk' 1 2))) (.num .nan)
      (by decide)

/-! ## C7 -/

/-- The membership predicate C7 ascribes to the Upcoming view, formalized
from the claim's words (not from the code): due date present, not completed,
strictly after today's local midnight, and at most 7 calendar days ahead with
any time of day on the seventh day included (before the midnight ending
day 7). -/
def claimedUpcoming (now : Int) (task : Task) : Bool :=
  match task.dueDate with
  | none => false
  | some d =>
    !task.completed && decide (startOfDayMs now < jsToInteger d) &&
      decide (jsToInteger d < addDaysMs (startOfDayMs now) 8)

/-- A task due at noon of the seventh calendar day ahead of `now`. -/
def noonDay7Task : Task :=
  { id := "u", description := "review", completed := false, createdAt := 0,
    priority := .medium, dueDate := some ((648000000 : Int) : ℚ), tags := [] }

/-- Counterexample to C7 as stated: with `now` at noon of day 0, a task due
at noon of the seventh calendar day satisfies the claim's predicate but is
excluded by the code, whose upper bound is `dueDate <= todayMidnight + 7
days` — only the first midnight instant of day 7 is included, not any time
of that day. -/
theorem c7_counterexample :
    claimedUpcoming 43200000 noonDay7Task = true ∧
    selectUpcomingTasksCompute 43200000 [noonDay7Task] = [] := by
  constructor
  · decide
  · decide

/-- The membership predicate the code actually computes for the Upcoming
view: due date present and nonzero (a zero timestamp is falsy), not
completed, due at or after tomorrow's local midnight, and at most the
midnight instant beginning the seventh day ahead. -/
def upcomingPred (now : Int) (task : Task) : Bool :=
  match task.dueDate with
  | none => false
  | some d =>
    !(d == 0) && !task.completed &&
      (decide (addDaysMs (startOfDayMs now) 1 ≤ jsToInteger d) &&
       decide (jsToInteger d ≤ addDaysMs (startOfDayMs now) 7))

/-- C7 (amended): for every fixed current time, `selectUpcomingTasks`'s
compute function returns exactly the tasks with a present non-zero due date,
not completed, due at or after tomorrow's local midnight and no later than
the midnight instant beginning the seventh day ahead (later times on day 7
are excluded); in particular a task with no due date never appears and a
completed task never appears. -/
theorem c7_upcoming_characterization (now : Int) (tasks : List Task) :
    selectUpcomingTasksCompute now tasks = tasks.filter (upcomingPred now) ∧
    (∀ task ∈ selectUpcomingTasksCompute now tasks,
      task.dueDate ≠ none ∧ task.completed = false) := by
  have hfilter : selectUpcomingTasksCompute now tasks = tasks.filter (upcomingPred now) := by
    apply List.filter_congr
    intro t _
    show (match t.dueDate with
      | none => false
      | some d =>
        if d == 0 || t.completed then false
        else decide (addDaysMs (startOfDayMs now) 1 ≤ jsToInteger d) &&
          decide (jsToInteger d ≤ addDaysMs (startOfDayMs now) 7)) = upcomingPred now t
    unfold upcomingPred
    cases t.dueDate with
    | none => rfl
    | some d =>
      by_cases h0 : (d == 0) = true
      · simp [h0]
      · by_cases hc : t.completed = true <;> simp [h0, hc]
  refine ⟨hfilter, ?_⟩
  intro task hmem
  rw [hfilter] at hmem
  have hp := (List.mem_filter.mp hmem).2
  unfold upcomingPred at hp
  cases hd : task.dueDate with
  | none =>
    rw [hd] at hp
    cases hp
  | some d =>
    rw [hd] at hp
    simp only [Bool.and_eq_true, Bool.not_eq_true'] at hp
    exact ⟨fun h => Option.noConfusion h, hp.1.2⟩

/-! ## C8 -/

/-- The closure invariant of a `createSelector` cache: once it has run, the
stored result is the compute function's value at the stored input. -/
def CacheConsistent {I R : Type} (resultFn : I → R) (c : SelCache I R) : Prop :=
  c.hasRun = true → ∃ i, c.lastInput = some i ∧ c.lastResult = some (resultFn i)

theorem createSelectorCall_hit {I R : Type} (inputSelector : AppState → I) (resultFn : I → R)
    (equalityFn : I → I → Bool) (i : I) (r : R) (s : AppState)
    (h : equalityFn i (inputSelector s) = true) :
    createSelectorCall inputSelector resultFn equalityFn ⟨some i, some r, true⟩ s =
      ⟨r, ⟨some i, some r, true⟩, 0⟩ := by
  show (if equalityFn i (inputSelector s) = true then
      (⟨r, ⟨some i, some r, true⟩, 0⟩ : SelCallResult I R)
    else ⟨resultFn (inputSelector s),
      ⟨some (inputSelector s), some (resultFn (inputSelector s)), true⟩, 1⟩) =
    ⟨r, ⟨some i, some r, true⟩, 0⟩
  rw [if_pos h]

theorem createSelectorCall_miss {I R : Type} (inputSelector : AppState → I) (resultFn : I → R)
    (equalityFn : I → I → Bool) (i : I) (r : R) (s : AppState)
    (h : ¬equalityFn i (inputSelector s) = true) :
    createSelectorCall inputSelector resultFn equalityFn ⟨some i, some r, true⟩ s =
      ⟨resultFn (inputSelector s),
        ⟨some (inputSelector s), some (resultFn (inputSelector s)), true⟩, 1⟩ := by
  show (if equalityFn i (inputSelector s) = true then
      (⟨r, ⟨some i, some r, true⟩, 0⟩ : SelCallResult I R)
    else ⟨resultFn (inputSelector s),
      ⟨some (inputSelector s), some (resultFn (inputSelector s)), true⟩, 1⟩) = _
  rw [if_neg h]

/-- C8: for any selector built with `createSelector` whose equality function
is sound for the compute function, (a) two successive calls from a fresh
cache with inputs the equality function accepts return the identical cached
result value, computing exactly once across the two calls, (b) a fresh cache
is consistent, and (c) every call from a consistent cache returns exactly the
unmemoized computation on the current input and preserves consistency. -/
theorem c8_createSelector_memoization {I R : Type} (inputSelector : AppState → I)
    (resultFn : I → R) (equalityFn : I → I → Bool)
    (hEq : ∀ a b, equalityFn a b = true → resultFn a = resultFn b) :
    (∀ s1 s2 : AppState,
      equalityFn (inputSelector s1) (inputSelector s2) = true →
      (createSelectorCall inputSelector resultFn equalityFn
        (createSelectorCall inputSelector resultFn equalityFn
          (selInit I R) s1).cache s2).value =
        (createSelectorCall inputSelector resultFn equalityFn (selInit I R) s1).value ∧
      (createSelectorCall inputSelector resultFn equalityFn
        (selInit I R) s1).computations = 1 ∧
      (createSelectorCall inputSelector resultFn equalityFn
        (createSelectorCall inputSelector resultFn equalityFn
          (selInit I R) s1).cache s2).computations = 0) ∧
    CacheConsistent resultFn (selInit I R) ∧
    (∀ (c : SelCache I R) (s : AppState), CacheConsistent resultFn c →
      (createSelectorCall inputSelector resultFn equalityFn c s).value =
        resultFn (inputSelector s) ∧
      CacheConsistent resultFn (createSelectorCall inputSelector resultFn equalityFn c s).cache) := by
  refine ⟨?_, ?_, ?_⟩
  · intro s1 s2 heq
    have h1 : createSelectorCall inputSelector resultFn equalityFn (selInit I R) s1 =
        ⟨resultFn (inputSelector s1),
          ⟨some (inputSelector s1), some (resultFn (inputSelector s1)), true⟩, 1⟩ := rfl
    rw [h1]
    rw [createSelectorCall_hit inputSelector resultFn equalityFn _ _ s2 heq]
    exact ⟨rfl, rfl, rfl⟩
  · intro h
    cases h
  · intro c s hc
    rcases c with ⟨li, lr, hr⟩
    cases hr with
    | false => exact ⟨rfl, fun _ => ⟨inputSelector s, rfl, rfl⟩⟩
    | true =>
      rcases hc rfl with ⟨i0, hli, hlr⟩
      cases hli
      cases hlr
      by_cases he : equalityFn i0 (inputSelector s) = true
      · rw [createSelectorCall_hit inputSelector resultFn equalityFn _ _ s he]
        exact ⟨hEq _ _ he, fun _ => ⟨i0, rfl, rfl⟩⟩
      · rw [createSelectorCall_miss inputSelector resultFn equalityFn _ _ s he]
        exact ⟨rfl, fun _ => ⟨inputSelector s, rfl, rfl⟩⟩

/-- The array equality function accepts only value-equal lists (soundness for
any compute function). -/
theorem arrayEqualityFn_eq {T : Type} [DecidableEq T] {a b : List T}
    (h : arrayEqualityFn a b = true) : a = b := by
  unfold arrayEqualityFn at h
  split_ifs at h with h1 h2
  · exact h1
  · have hlen : a.length = b.length := not_ne_iff.mp h2
    apply List.ext_getElem hlen
    intro i hia hib
    have hiz : i < (a.zip b).length := by
      rw [List.length_zip]
      omega
    have hmem : (a[i], b[i]) ∈ a.zip b := by
      have hz : (a.zip b)[i] = (a[i], b[i]) := List.getElem_zip
      rw [← hz]
      apply List.getElem_mem
    have := List.all_eq_true.mp h _ hmem
    exact of_decide_eq_true this

/-- The two state values of the C8 witness: same `tasks` value, different
`ui`. -/
def c8StateA : AppState :=
  { tasks := [{ id := "a", description := "walk", completed := true, createdAt := 0,
                priority := .medium, dueDate := none, tags := [] }]
    ui := initialState.ui, theme := defaultTheme }

/-- Second witness state: same tasks, `reorderMode` toggled. -/
def c8StateB : AppState :=
  { c8StateA with ui := { initialState.ui with reorderMode := true } }

/-- Witness for C8: the completed-tasks selector over two states sharing the
same tasks value computes once and returns the cached value on the second
call. -/
theorem c8_witness :
    (createSelectorCall (fun s => s.tasks) selectCompletedTasksCompute arrayEqualityFn
      (createSelectorCall (fun s => s.tasks) selectCompletedTasksCompute arrayEqualityFn
        (selInit (List Task) (List Task)) c8StateA).cache c8StateB).value =
      (createSelectorCall (fun s => s.tasks) selectCompletedTasksCompute arrayEqualityFn
        (selInit (List Task) (List Task)) c8StateA).value ∧
    (createSelectorCall (fun s => s.tasks) selectCompletedTasksCompute arrayEqualityFn
      (selInit (List Task) (List Task)) c8StateA).computations = 1 ∧
    (createSelectorCall (fun s => s.tasks) selectCompletedTasksCompute arrayEqualityFn
      (createSelectorCall (fun s => s.tasks) selectCompletedTasksCompute arrayEqualityFn
        (selInit (List Task) (List Task)) c8StateA).cache c8StateB).computations = 0 :=
  (c8_createSelector_memoization (fun s => s.tasks) selectCompletedTasksCompute arrayEqualityFn
    (fun a b h => by rw [arrayEqualityFn_eq h])).1 c8StateA c8StateB (by decide)

end TaskManager
